import Mathlib

/-!
The ravendb_exporter: duration parsing, query loading, query collection, stats collection

A shallow embedding of `collector.go` and `fromQueryCollector.go`.

Conventions of the embedding:

* A `float64` value is the rational number it denotes. The arithmetic of `timeSpanToSeconds`
  rounds every operation to the nearest `float64` (`round64`); values that are only parsed,
  stored and sent (JSON numbers, metric values) are carried as they are.
* Go `int` is 64 bits wide; `strconv.Atoi` saturates on overflow as the Go library does.
* A Go panic is modelled by `none`; stateful code returns `none` together with the state that
  had been reached when the panic happened.
* JSON byte buffers read through `jsonparser` are modelled by their parsed tree `Json`.
-/

namespace RavenExporter

/-! ## Regular expressions (Go `regexp`, leftmost-first semantics) -/

/-- The fragment of Go regular-expression syntax used by `timespanRegex`. -/
inductive Regexp where
  | char (c : Char)
  | digit
  | concat (a b : Regexp)
  | quest (a : Regexp)
  | plus (a : Regexp)
  | rep (n : Nat) (a : Regexp)
  | capture (index : Nat) (name : String) (a : Regexp)

/-- Captured groups found so far: group index and the captured text, most recent first. -/
abbrev Caps := List (Nat × List Char)

/-- A matcher thread: the input still to be read and the groups captured so far. -/
abbrev Thread := List Char × Caps

/-- Exactly `n` repetitions of `step`, threads in priority order. -/
def repeatN (step : Thread → List Thread) : Nat → Thread → List Thread
  | 0, t => [t]
  | n + 1, t => (step t).flatMap (repeatN step n)

/-- One or more repetitions of `step`, greedy: more repetitions are preferred to fewer. -/
def plusN (step : Thread → List Thread) : Nat → Thread → List Thread
  | 0, _ => []
  | n + 1, t => (step t).flatMap (fun t1 => plusN step n t1 ++ [t1])

/-- All ways the expression matches a prefix of the thread's input, in the priority order of a
backtracking matcher (greedy operators try the longer alternative first). -/
def run : Regexp → Thread → List Thread
  | .char c, t =>
    match t.1 with
    | x :: xs => if x = c then [(xs, t.2)] else []
    | [] => []
  | .digit, t =>
    match t.1 with
    | x :: xs => if x.isDigit then [(xs, t.2)] else []
    | [] => []
  | .concat a b, t => (run a t).flatMap (fun t1 => run b t1)
  | .quest a, t => run a t ++ [t]
  | .plus a, t => plusN (fun t1 => run a t1) t.1.length t
  | .rep n a, t => repeatN (fun t1 => run a t1) n t
  | .capture i _ a, t =>
    (run a t).map (fun t1 => (t1.1, (i, t.1.take (t.1.length - t1.1.length)) :: t1.2))

/-- Names of the capture groups in index order (pre-order of the opening parentheses). -/
def groupNames : Regexp → List String
  | .char _ => []
  | .digit => []
  | .concat a b => groupNames a ++ groupNames b
  | .quest a => groupNames a
  | .plus a => groupNames a
  | .rep _ a => groupNames a
  | .capture _ name a => name :: groupNames a

/-- Go `Regexp.SubexpNames`: element 0 is the empty name of the whole match. -/
def SubexpNames (regex : Regexp) : List String :=
  "" :: groupNames regex

/-- Text of group `i` in a finished thread; a group that did not take part gives `""`. -/
def groupText (caps : Caps) (i : Nat) : String :=
  match caps.lookup i with
  | some cs => String.mk cs
  | none => ""

/-- The leftmost match: the first start position with a match, and its preferred thread. -/
def findFrom (regex : Regexp) : List Char → Option (List Char × Thread)
  | [] =>
    match run regex ([], []) with
    | t :: _ => some ([], t)
    | [] => none
  | c :: cs =>
    match run regex (c :: cs, []) with
    | t :: _ => some (c :: cs, t)
    | [] => findFrom regex cs

/-- Go `Regexp.FindStringSubmatch`: the text of the leftmost match followed by the text of each
group, or the nil slice (here the empty list) when there is no match. -/
def FindStringSubmatch (regex : Regexp) (s : String) : List String :=
  match findFrom regex s.data with
  | none => []
  | some (start, t) =>
    String.mk (start.take (start.length - t.1.length)) ::
      (List.range (groupNames regex).length).map (fun i => groupText t.2 (i + 1))

/-! ## `strconv.Atoi` -/

/-- Largest Go `int` (64 bits). -/
def maxInt : Int := 9223372036854775807

/-- Decimal value of a string of ASCII digits, `none` on any other character. -/
def parseDigits : List Char → Nat → Option Nat
  | [], acc => some acc
  | c :: cs, acc => if c.isDigit then parseDigits cs (acc * 10 + (c.toNat - 48)) else none

/-- Go `strconv.Atoi`: the value and whether an error is returned. A syntax error gives 0, a
value out of range gives the nearest `int`. -/
def Atoi (s : String) : Int × Bool :=
  let body (neg : Bool) (cs : List Char) : Int × Bool :=
    match cs with
    | [] => (0, true)
    | _ =>
      match parseDigits cs 0 with
      | none => (0, true)
      | some n =>
        if neg then
          if (n : Int) > maxInt + 1 then (-(maxInt + 1), true) else (-(n : Int), false)
        else
          if (n : Int) > maxInt then (maxInt, true) else ((n : Int), false)
  match s.data with
  | [] => (0, true)
  | '+' :: cs => body false cs
  | '-' :: cs => body true cs
  | cs => body false cs

/-! ## Go maps with string keys -/

/-- A Go `map[string]V`, as an association list with at most one entry per key in use. -/
abbrev GoMap (V : Type) := List (String × V)

/-- Assignment `m[k] = v`. -/
def GoMap.set {V : Type} (m : GoMap V) (k : String) (v : V) : GoMap V :=
  (k, v) :: m.filter (fun e => e.1 != k)

/-- The lookup `v, ok := m[k]`. -/
def GoMap.get {V : Type} (m : GoMap V) (k : String) : Option V :=
  m.lookup k

/-! ## `float64` arithmetic -/

/-- The integer part of the binary logarithm of `n`, by at most `fuel` halvings. -/
def log2Fuel : Nat → Nat → Nat
  | 0, _ => 0
  | fuel + 1, n => if 2 ≤ n then log2Fuel fuel (n / 2) + 1 else 0

/-- The integer part of the binary logarithm of a positive natural number. -/
def natLog2 (n : Nat) : Nat := log2Fuel n n

/-- The integer part of the binary logarithm of the positive rational `n / d`. -/
def floorLog2 (n d : Nat) : Int :=
  let e : Int := (natLog2 n : Int) - (natLog2 d : Int)
  if d * 2 ^ e.toNat ≤ n * 2 ^ (-e).toNat then e else e - 1

/-- The `float64` nearest to a rational, ties to the even significand (IEEE 754 binary64 with
53 significant bits). The exponent range is not modelled: the values `timeSpanToSeconds`
computes are 0 or lie between `1e-7` and `1e24`, inside the normal range. -/
def round64 (x : ℚ) : ℚ :=
  if x = 0 then 0
  else
    let n := x.num.natAbs
    let d := x.den
    let sh : Int := 52 - floorLog2 n d
    let N := n * 2 ^ sh.toNat
    let D := d * 2 ^ (-sh).toNat
    let q := N / D
    let r := N % D
    let m := if D < 2 * r ∨ (2 * r = D ∧ q % 2 = 1) then q + 1 else q
    let a : ℚ := ((m * 2 ^ (-sh).toNat : Nat) : ℚ) / ((2 ^ sh.toNat : Nat) : ℚ)
    if x < 0 then -a else a

/-- The conversion `float64(n)` of a Go `int`. -/
def Float64.ofInt (n : Int) : ℚ := round64 (n : ℚ)

/-- The `float64` sum `x + y`. -/
def Float64.add (x y : ℚ) : ℚ := round64 (x + y)

/-- The `float64` product `x * y`. -/
def Float64.mul (x y : ℚ) : ℚ := round64 (x * y)

/-- The `float64` quotient `x / y`. -/
def Float64.div (x y : ℚ) : ℚ := round64 (x / y)

/-! ## `collector.go`: the duration parser -/

/-- The pattern
`((?P<days>\d+)\.)?(?P<hours>\d{2}):(?P<minutes>\d{2}):(?P<seconds>\d{2})(\.(?P<secondfraction>\d{7}))?`. -/
def timespanRegex : Regexp :=
  .concat (.quest (.capture 1 "" (.concat (.capture 2 "days" (.plus .digit)) (.char '.'))))
  (.concat (.capture 3 "hours" (.rep 2 .digit))
  (.concat (.char ':')
  (.concat (.capture 4 "minutes" (.rep 2 .digit))
  (.concat (.char ':')
  (.concat (.capture 5 "seconds" (.rep 2 .digit))
  (.quest (.capture 6 "" (.concat (.char '.') (.capture 7 "secondfraction" (.rep 7 .digit))))))))))

/-- The loop of `matchNamedGroups`: `results[name] = matches[i]` for each named group; `none` is
the index-out-of-range panic. -/
def matchNamedGroupsLoop (matches' : List String) :
    List (Nat × String) → GoMap String → Option (GoMap String)
  | [], results => some results
  | (i, name) :: rest, results =>
    if name ≠ "" then
      match matches'[i]? with
      | some m => matchNamedGroupsLoop matches' rest (results.set name m)
      | none => none
    else matchNamedGroupsLoop matches' rest results

/-- Embedding of `matchNamedGroups`. -/
def matchNamedGroups (regex : Regexp) (text : String) : Option (GoMap String) :=
  let matches' := FindStringSubmatch regex text
  matchNamedGroupsLoop matches' (SubexpNames regex).enum []

/-- Embedding of `timeSpanToSeconds`; `none` is a panic. Each `float64` operation is rounded on
its own, in the order of the Go expression (`x*24*60*60` is `((x*24)*60)*60`); no product is
fused with the sum that follows it. -/
def timeSpanToSeconds (timespanString : String) : Option ℚ :=
  match matchNamedGroups timespanRegex timespanString with
  | none => none
  | some matches' =>
    let result : ℚ := 0
    let result :=
      match matches'.get "days" with
      | some daysString =>
        Float64.add result
          (Float64.mul (Float64.mul (Float64.mul (Float64.ofInt (Atoi daysString).1) 24) 60) 60)
      | none => result
    let result :=
      match matches'.get "hours" with
      | some hoursString =>
        Float64.add result (Float64.mul (Float64.mul (Float64.ofInt (Atoi hoursString).1) 60) 60)
      | none => result
    let result :=
      match matches'.get "minutes" with
      | some minutesString =>
        Float64.add result (Float64.mul (Float64.ofInt (Atoi minutesString).1) 60)
      | none => result
    let result :=
      match matches'.get "seconds" with
      | some secondsString => Float64.add result (Float64.ofInt (Atoi secondsString).1)
      | none => result
    let result :=
      match matches'.get "secondfraction" with
      | some secondFractionString =>
        Float64.add result (Float64.div (Float64.ofInt (Atoi secondFractionString).1) 10000000)
      | none => result
    some result

/-! ## Duration texts (specification side) -/

/-- Decimal value of a digit string (specification side). -/
def decimalValue (ds : List Char) : Nat :=
  ds.foldl (fun acc c => acc * 10 + (c.toNat - 48)) 0

/-- All characters are ASCII digits. -/
def allDigits (cs : List Char) : Bool := cs.all Char.isDigit

/-- The regular expression after the optional days prefix. -/
def timespanTail : Regexp :=
  (.concat (.capture 3 "hours" (.rep 2 .digit))
  (.concat (.char ':')
  (.concat (.capture 4 "minutes" (.rep 2 .digit))
  (.concat (.char ':')
  (.concat (.capture 5 "seconds" (.rep 2 .digit))
  (.quest (.capture 6 "" (.concat (.char '.') (.capture 7 "secondfraction" (.rep 7 .digit))))))))))

/-- The optional days prefix of the regular expression. -/
def timespanDays : Regexp :=
  .quest (.capture 1 "" (.concat (.capture 2 "days" (.plus .digit)) (.char '.')))

/-- A duration text by its digit groups: `[days.]hours:minutes:seconds[.fraction]`. -/
structure DurationText where
  days : Option (List Char)
  hours : List Char
  minutes : List Char
  seconds : List Char
  fraction : Option (List Char)

/-- The grammar `[d.]hh:mm:ss[.fffffff]`: `d` one or more digits, `hh`, `mm`, `ss` two digits
each, `fffffff` seven digits. -/
def DurationText.wellFormed (t : DurationText) : Bool :=
  (match t.days with
    | some d => !d.isEmpty && allDigits d
    | none => true) &&
  (t.hours.length == 2 && allDigits t.hours) &&
  (t.minutes.length == 2 && allDigits t.minutes) &&
  (t.seconds.length == 2 && allDigits t.seconds) &&
  (match t.fraction with
    | some f => f.length == 7 && allDigits f
    | none => true)

/-- The text of a duration. -/
def DurationText.render (t : DurationText) : String :=
  String.mk ((match t.days with
      | some d => d ++ ['.']
      | none => []) ++
    t.hours ++ [':'] ++ t.minutes ++ [':'] ++ t.seconds ++
    (match t.fraction with
      | some f => '.' :: f
      | none => []))

/-- The days value of a duration text, 0 when the days prefix is absent. -/
def DurationText.daysValue (t : DurationText) : Nat :=
  match t.days with
  | some d => decimalValue d
  | none => 0

/-- The fraction digits of a duration text as a number, 0 when the fraction is absent. -/
def DurationText.fractionValue (t : DurationText) : Nat :=
  match t.fraction with
  | some f => decimalValue f
  | none => 0

/-- The whole seconds of a duration text: `d*86400 + hh*3600 + mm*60 + ss`. -/
def DurationText.wholeSeconds (t : DurationText) : Nat :=
  t.daysValue * 86400 + decimalValue t.hours * 3600 + decimalValue t.minutes * 60 +
    decimalValue t.seconds

/-- The number of seconds a duration text denotes, over exact rationals:
`d*86400 + hh*3600 + mm*60 + ss + fffffff/10000000`; an absent days prefix or fraction
contributes zero. -/
def DurationText.exactSeconds (t : DurationText) : ℚ :=
  (t.daysValue : ℚ) * 86400 + (decimalValue t.hours : ℚ) * 3600 +
    (decimalValue t.minutes : ℚ) * 60 + (decimalValue t.seconds : ℚ) +
    (t.fractionValue : ℚ) / 10000000

/-- The text `00:00:00.1000000`. -/
def tenthOfSecond : DurationText :=
  ⟨none, ['0', '0'], ['0', '0'], ['0', '0'], some ['1', '0', '0', '0', '0', '0', '0']⟩

/-- The text `10000000000000000000.00:00:00`, with a days value above the largest Go `int`. -/
def hugeDays : DurationText :=
  ⟨some "10000000000000000000".data, ['0', '0'], ['0', '0'], ['0', '0'], none⟩

/-- The text `1.02:03:04.5000000`. -/
def dayAndHalfSecond : DurationText :=
  ⟨some ['1'], ['0', '2'], ['0', '3'], ['0', '4'], some ['5', '0', '0', '0', '0', '0', '0']⟩

/-! ## Go computations with state and panics -/

/-- A Go `error` value; `none` of `Option GoError` is `nil`. -/
abbrev GoError := String

/-- A Go computation over a state `σ`: it either returns a value or panics (`none`); in both
cases the state reached is kept. -/
def Go (σ α : Type) : Type := σ → Option α × σ

instance (σ : Type) : Monad (Go σ) where
  pure a := fun s => (some a, s)
  bind m f := fun s =>
    match m s with
    | (some a, s1) => f a s1
    | (none, s1) => (none, s1)

/-- A panic: the computation stops in the current state. -/
def Go.panic {σ α : Type} : Go σ α := fun s => (none, s)

/-- Read the state. -/
def Go.read {σ : Type} : Go σ σ := fun s => (some s, s)

/-- Change the state. -/
def Go.update {σ : Type} (f : σ → σ) : Go σ Unit := fun s => (some (), f s)

/-- The value of a call that panics when it is `none`. -/
def Go.orPanic {σ α : Type} (o : Option α) : Go σ α :=
  match o with
  | some a => pure a
  | none => Go.panic

/-- A pointer to a `τ` held in the state `σ`. -/
structure Ref (σ τ : Type) where
  get : σ → τ
  set : τ → σ → σ

/-! ## JSON documents (`github.com/buger/jsonparser`) -/

/-- A parsed JSON document. Object fields are kept in document order. -/
inductive Json where
  | null
  | bool (b : Bool)
  | num (v : ℚ)
  | str (s : String)
  | arr (elems : List Json)
  | obj (fields : List (String × Json))

/-- The index `n` of an array step `"[n]"` of a key path. -/
def arrayIndex (key : String) : Option Nat :=
  match key.data with
  | '[' :: rest =>
    match rest.reverse with
    | ']' :: mid =>
      match Atoi (String.mk mid.reverse) with
      | (n, false) => if 0 ≤ n then some n.toNat else none
      | (_, true) => none
    | _ => none
  | _ => none

/-- One step of a key path: the first field of that name in an object, the element of that
index in an array. -/
def Json.step (data : Json) (key : String) : Option Json :=
  match data with
  | .obj fields => fields.lookup key
  | .arr elems =>
    match arrayIndex key with
    | some n => elems[n]?
    | none => none
  | _ => none

/-- Library function `jsonparser.Get`: the value at a key path, `none` when the path is not found.
-/
def Get (data : Json) (keys : List String) : Option Json :=
  keys.foldl (fun cur key => cur.bind (fun j => j.step key)) (some data)

/-- Library function `jsonparser.GetFloat`: the number at the path; 0 and an error when the path
is missing or the value is not a number. -/
def GetFloat (data : Json) (keys : List String) : ℚ × Option GoError :=
  match Get data keys with
  | some (.num v) => (v, none)
  | some _ => (0, some "Value is not a number")
  | none => (0, some "Key path not found")

/-- Library function `jsonparser.GetString`: the string at the path; `""` and an error when the
path is missing or the value is not a string. -/
def GetString (data : Json) (keys : List String) : String × Option GoError :=
  match Get data keys with
  | some (.str s) => (s, none)
  | some _ => ("", some "Value is not a string")
  | none => ("", some "Key path not found")

/-- Library function `jsonparser.GetBoolean`: the boolean at the path; `false` and an error when
the path is missing or the value is not a boolean. -/
def GetBoolean (data : Json) (keys : List String) : Bool × Option GoError :=
  match Get data keys with
  | some (.bool b) => (b, none)
  | some _ => (false, some "Value is not a boolean")
  | none => (false, some "Key path not found")

/-- Library function `jsonparser.ArrayEach`: the elements the callback is called on, in order; no
element and an error when the path is missing or the value is not an array. -/
def ArrayEach (data : Json) (keys : List String) : List Json × Option GoError :=
  match Get data keys with
  | some (.arr elems) => (elems, none)
  | some _ => ([], some "Value is not an array")
  | none => ([], some "Key path not found")

/-! ## Metrics (`github.com/prometheus/client_golang/prometheus`) -/

/-- A metric descriptor. -/
structure Desc where
  fqName : String
  help : String
  variableLabels : List String
  deriving DecidableEq

/-- A metric as sent on a collection channel: its descriptor, label values and value. -/
structure Metric where
  desc : Desc
  labelValues : List String
  value : ℚ
  deriving DecidableEq

/-- A gauge. -/
structure Gauge where
  desc : Desc
  value : ℚ
  deriving DecidableEq

/-- A counter. -/
structure Counter where
  desc : Desc
  value : ℚ
  deriving DecidableEq

/-- A vector of gauges: one series per combination of label values, in order of creation. -/
structure GaugeVec where
  desc : Desc
  series : List (List String × ℚ)
  deriving DecidableEq

/-- A vector of counters: one series per combination of label values, in order of creation. -/
structure CounterVec where
  desc : Desc
  series : List (List String × ℚ)
  deriving DecidableEq

/-- Library function `prometheus.BuildFQName`. -/
def BuildFQName (namespace' subsystem name : String) : String :=
  if name = "" then ""
  else if namespace' ≠ "" ∧ subsystem ≠ "" then namespace' ++ "_" ++ subsystem ++ "_" ++ name
  else if namespace' ≠ "" then namespace' ++ "_" ++ name
  else if subsystem ≠ "" then subsystem ++ "_" ++ name
  else name

/-- Library function `Gauge.Set`. -/
def Gauge.Set (g : Gauge) (v : ℚ) : Gauge := { g with value := v }

/-- Library function `Counter.Add`: panics (`none`) on a negative increment. -/
def Counter.Add (c : Counter) (v : ℚ) : Option Counter :=
  if v < 0 then none else some { c with value := c.value + v }

/-- The metric a gauge sends. -/
def Gauge.metric (g : Gauge) : Metric := ⟨g.desc, [], g.value⟩

/-- The metric a counter sends. -/
def Counter.metric (c : Counter) : Metric := ⟨c.desc, [], c.value⟩

/-- The series of the given label values, created at 0 when it does not exist yet. -/
def getOrCreate (series : List (List String × ℚ)) (lvs : List String) : List (List String × ℚ) :=
  if (series.lookup lvs).isSome then series else series ++ [(lvs, 0)]

/-- Apply `f` to the value of the series of the given label values. -/
def updateSeries (series : List (List String × ℚ)) (lvs : List String) (f : ℚ → ℚ) :
    List (List String × ℚ) :=
  series.map (fun p => if p.1 = lvs then (p.1, f p.2) else p)

/-- Library function `GaugeVec.WithLabelValues`: the child of the given label values (created if
needed); panics (`none`) when the number of values differs from the number of label names. -/
def GaugeVec.WithLabelValues (vec : GaugeVec) (lvs : List String) : Option GaugeVec :=
  if lvs.length = vec.desc.variableLabels.length then
    some { vec with series := getOrCreate vec.series lvs }
  else none

/-- The results of `f` on every element of the list, `none` as soon as one is `none`. -/
def findAll {α β : Type} (f : α → Option β) : List α → Option (List β)
  | [] => some []
  | a :: rest =>
    match f a with
    | none => none
    | some b =>
      match findAll f rest with
      | none => none
      | some bs => some (b :: bs)

/-- Library function `GaugeVec.With`: the child of the given label map (created if needed) and its
label values in the order of the label names; panics (`none`) when the map does not have exactly
the label names of the vector. -/
def GaugeVec.With (vec : GaugeVec) (labels : GoMap String) : Option (GaugeVec × List String) :=
  if labels.length = vec.desc.variableLabels.length then
    match findAll (fun name => labels.get name) vec.desc.variableLabels with
    | some lvs => some ({ vec with series := getOrCreate vec.series lvs }, lvs)
    | none => none
  else none

/-- Method `Set` on the child of the given label values. -/
def GaugeVec.setChild (vec : GaugeVec) (lvs : List String) (v : ℚ) : GaugeVec :=
  { vec with series := updateSeries vec.series lvs (fun _ => v) }

/-- The value of the series of the given label values, if that series exists. -/
def GaugeVec.value? (vec : GaugeVec) (lvs : List String) : Option ℚ :=
  vec.series.lookup lvs

/-- Library function `GaugeVec.Collect`: every series of the vector. -/
def GaugeVec.Collect (vec : GaugeVec) : List Metric :=
  vec.series.map (fun p => ⟨vec.desc, p.1, p.2⟩)

/-- Library function `GaugeVec.Describe`. -/
def GaugeVec.Describe (vec : GaugeVec) : List Desc := [vec.desc]

/-- Library function `CounterVec.WithLabelValues`: the child of the given label values (created if
needed); panics (`none`) when the number of values differs from the number of label names. -/
def CounterVec.WithLabelValues (vec : CounterVec) (lvs : List String) : Option CounterVec :=
  if lvs.length = vec.desc.variableLabels.length then
    some { vec with series := getOrCreate vec.series lvs }
  else none

/-- Method `Add` on the child of the given label values: panics (`none`) on a negative increment. -/
def CounterVec.addChild (vec : CounterVec) (lvs : List String) (v : ℚ) : Option CounterVec :=
  if v < 0 then none else some { vec with series := updateSeries vec.series lvs (fun x => x + v) }

/-- Library function `CounterVec.Collect`: every series of the vector. -/
def CounterVec.Collect (vec : CounterVec) : List Metric :=
  vec.series.map (fun p => ⟨vec.desc, p.1, p.2⟩)

/-- Library function `CounterVec.Describe`. -/
def CounterVec.Describe (vec : CounterVec) : List Desc := [vec.desc]

/-! ## `collector.go`: the stats collector -/

/-- The constant `namespace`. -/
def namespace' : String := "ravendb"

/-- The constant `subsystem`. -/
def subsystem : String := ""

/-- Modelled from the spec: the struct `dbStats` is declared outside the two source files; its
fields are the ones the collector reads: the database name, its stats document and its metrics
document. -/
structure dbStats where
  database : String
  databaseStats : Json
  metrics : Json

/-- Modelled from the spec: the struct `stats` is declared outside the two source files; its
fields are the ones the collector reads: the CPU, memory, node-info and metrics documents and the
per-database entries. -/
structure stats where
  cpu : Json
  memory : Json
  nodeInfo : Json
  metrics : Json
  dbStats : List dbStats

/-- The struct `exporter`. -/
structure exporter where
  up : Gauge
  workingSet : Gauge
  cpuTime : Counter
  isLeader : Gauge
  requestTotal : Counter
  documentPutTotal : Counter
  documentPutBytes : Counter
  mapIndexIndexedTotal : Counter
  mapReduceIndexMappedTotal : Counter
  mapReduceIndexReducedTotal : Counter
  databaseDocuments : GaugeVec
  databaseIndexes : GaugeVec
  databaseStaleIndexes : GaugeVec
  databaseSize : GaugeVec
  databaseRequestTotal : CounterVec
  databaseDocumentPutTotal : CounterVec
  databaseDocumentPutBytes : CounterVec
  databaseMapIndexIndexedTotal : CounterVec
  databaseMapReduceIndexMappedTotal : CounterVec
  databaseMapReduceIndexReducedTotal : CounterVec

/-- Embedding of `createGauge`. -/
def createGauge (name help : String) : Gauge :=
  ⟨⟨BuildFQName namespace' subsystem name, help, []⟩, 0⟩

/-- Embedding of `createDatabaseGaugeVec`. -/
def createDatabaseGaugeVec (name help : String) : GaugeVec :=
  ⟨⟨BuildFQName namespace' subsystem name, help, ["database"]⟩, []⟩

/-- Embedding of `createCounter`. -/
def createCounter (name help : String) : Counter :=
  ⟨⟨BuildFQName namespace' subsystem name, help, []⟩, 0⟩

/-- Embedding of `createDatabaseCounterVec`. -/
def createDatabaseCounterVec (name help : String) : CounterVec :=
  ⟨⟨BuildFQName namespace' subsystem name, help, ["database"]⟩, []⟩

/-- Embedding of `newExporter`. -/
def newExporter : exporter where
  up := createGauge "up" "Whether the RavenDB scrape was successful"
  workingSet := createGauge "working_set_bytes" "Process working set"
  cpuTime := createCounter "cpu_time_seconds_total" "CPU time"
  isLeader := createGauge "is_leader" "If 1, then node is the cluster leader, otherwise 0"
  requestTotal := createCounter "request_total" "Server-wide request count"
  documentPutTotal := createCounter "document_put_total" "Server-wide document puts count"
  documentPutBytes := createCounter "document_put_bytes_total" "Server-wide document put bytes"
  mapIndexIndexedTotal :=
    createCounter "mapindex_indexed_total" "Server-wide map index indexed count"
  mapReduceIndexMappedTotal :=
    createCounter "mapreduceindex_mapped_total" "Server-wide map-reduce index mapped count"
  mapReduceIndexReducedTotal :=
    createCounter "mapreduceindex_reduced_total" "Server-wide map-reduce index reduced count"
  databaseDocuments :=
    createDatabaseGaugeVec "database_documents" "Count of documents in a database"
  databaseIndexes := createDatabaseGaugeVec "database_indexes" "Count of indexes in a database"
  databaseStaleIndexes :=
    createDatabaseGaugeVec "database_stale_indexes" "Count of stale indexes in a database"
  databaseSize := createDatabaseGaugeVec "database_size_bytes" "Database size in bytes"
  databaseRequestTotal :=
    createDatabaseCounterVec "database_request_total" "Database request count"
  databaseDocumentPutTotal :=
    createDatabaseCounterVec "database_document_put_total" "Database document puts count"
  databaseDocumentPutBytes :=
    createDatabaseCounterVec "database_document_put_bytes_total" "Database document put bytes"
  databaseMapIndexIndexedTotal :=
    createDatabaseCounterVec "database_mapindex_indexed_total" "Database map index indexed count"
  databaseMapReduceIndexMappedTotal :=
    createDatabaseCounterVec "database_mapreduceindex_mapped_total"
      "Database map-reduce index mapped count"
  databaseMapReduceIndexReducedTotal :=
    createDatabaseCounterVec "database_mapreduceindex_reduced_total"
      "Database map-reduce index reduced count"

/-- Embedding of `exporter.Describe`: the descriptors sent, in order. -/
def exporter.Describe (e : exporter) : List Desc :=
  [e.up.desc,
    e.workingSet.desc,
    e.cpuTime.desc,
    e.isLeader.desc,
    e.requestTotal.desc,
    e.documentPutTotal.desc,
    e.documentPutBytes.desc,
    e.mapIndexIndexedTotal.desc,
    e.mapReduceIndexMappedTotal.desc,
    e.mapReduceIndexReducedTotal.desc] ++
  e.databaseDocuments.Describe ++
  e.databaseIndexes.Describe ++
  e.databaseStaleIndexes.Describe ++
  e.databaseSize.Describe ++
  e.databaseRequestTotal.Describe ++
  e.databaseDocumentPutTotal.Describe ++
  e.databaseMapIndexIndexedTotal.Describe ++
  e.databaseMapReduceIndexMappedTotal.Describe ++
  e.databaseMapReduceIndexReducedTotal.Describe

/-- Embedding of `getCPUTime`: the `TotalProcessorTime` of the last entry of `CpuStats`, parsed
as a duration; `none` is the panic of `timeSpanToSeconds`. -/
def getCPUTime (stats : stats) : Option ℚ :=
  let cpuTimeString :=
    (ArrayEach stats.cpu ["CpuStats"]).1.foldl
      (fun _ value => (GetString value ["TotalProcessorTime"]).1) ""
  timeSpanToSeconds cpuTimeString

/-- Embedding of `getMemoryWorkingSet`. -/
def getMemoryWorkingSet (stats : stats) : ℚ :=
  (GetFloat stats.memory ["WorkingSet"]).1

/-- Embedding of `getIsLeader`. -/
def getIsLeader (stats : stats) : ℚ :=
  let value := (GetString stats.nodeInfo ["CurrentState"]).1
  if value = "Leader" then 1 else 0

/-- Embedding of `getRequestTotal`. -/
def getRequestTotal (stats : stats) : ℚ :=
  (GetFloat stats.metrics ["Requests", "RequestsPerSec", "Count"]).1

/-- Embedding of `getDocumentPutTotal`. -/
def getDocumentPutTotal (stats : stats) : ℚ :=
  (GetFloat stats.metrics ["Docs", "PutsPerSec", "Count"]).1

/-- Embedding of `getDocumentPutBytesTotal`. -/
def getDocumentPutBytesTotal (stats : stats) : ℚ :=
  (GetFloat stats.metrics ["Docs", "BytesPutsPerSec", "Count"]).1

/-- Embedding of `getMapIndexIndexedTotal`. -/
def getMapIndexIndexedTotal (stats : stats) : ℚ :=
  (GetFloat stats.metrics ["MapIndexes", "MappedPerSec", "Count"]).1

/-- Embedding of `getMapReduceIndexMappedTotal`. -/
def getMapReduceIndexMappedTotal (stats : stats) : ℚ :=
  (GetFloat stats.metrics ["MapReduceIndexes", "MappedPerSec", "Count"]).1

/-- Embedding of `getMapReduceIndexReducedTotal`. -/
def getMapReduceIndexReducedTotal (stats : stats) : ℚ :=
  (GetFloat stats.metrics ["MapReduceIndexes", "ReducedPerSec", "Count"]).1

/-- Embedding of `getDatabaseDocuments`. -/
def getDatabaseDocuments (dbStats : dbStats) : ℚ :=
  (GetFloat dbStats.databaseStats ["CountOfDocuments"]).1

/-- Embedding of `getDatabaseIndexes`. -/
def getDatabaseIndexes (dbStats : dbStats) : ℚ :=
  (GetFloat dbStats.databaseStats ["CountOfIndexes"]).1

/-- Embedding of `getDatabaseStaleIndexes`. -/
def getDatabaseStaleIndexes (dbStats : dbStats) : ℚ :=
  let count : Nat :=
    (ArrayEach dbStats.databaseStats ["Indexes"]).1.foldl
      (fun count value =>
        let isStale := (GetBoolean value ["IsStale"]).1
        if isStale then count + 1 else count) 0
  (count : ℚ)

/-- Embedding of `getDatabaseSize`. -/
def getDatabaseSize (dbStats : dbStats) : ℚ :=
  (GetFloat dbStats.databaseStats ["SizeOnDisk", "SizeInBytes"]).1

/-- Embedding of `getDatabaseRequestTotal`. -/
def getDatabaseRequestTotal (dbStats : dbStats) : ℚ :=
  (GetFloat dbStats.metrics ["Requests", "RequestsPerSec", "Count"]).1

/-- Embedding of `getDatabaseDocumentPutTotal`. -/
def getDatabaseDocumentPutTotal (dbStats : dbStats) : ℚ :=
  (GetFloat dbStats.metrics ["Docs", "PutsPerSec", "Count"]).1

/-- Embedding of `getDatabaseDocumentPutBytes`. -/
def getDatabaseDocumentPutBytes (dbStats : dbStats) : ℚ :=
  (GetFloat dbStats.metrics ["Docs", "BytesPutsPerSec", "Count"]).1

/-- Embedding of `getDatabaseMapIndexIndexedTotal`. -/
def getDatabaseMapIndexIndexedTotal (dbStats : dbStats) : ℚ :=
  (GetFloat dbStats.metrics ["MapIndexes", "IndexedPerSec", "Count"]).1

/-- Embedding of `getDatabaseMapReduceIndexMappedTotal`. -/
def getDatabaseMapReduceIndexMappedTotal (dbStats : dbStats) : ℚ :=
  (GetFloat dbStats.metrics ["MapIndexes", "MappedPerSec", "Count"]).1

/-- Embedding of `getDatabaseMapReduceIndexReducedTotal`. -/
def getDatabaseMapReduceIndexReducedTotal (dbStats : dbStats) : ℚ :=
  (GetFloat dbStats.metrics ["MapIndexes", "ReducedPerSec", "Count"]).1

/-- The state of a scrape: the exporter and the metrics sent so far on the channel `ch`. -/
structure Scrape where
  e : exporter
  ch : List Metric

/-- The statement `g.Set(v)` on a gauge of the exporter. -/
def gaugeSet (g : Ref exporter Gauge) (v : ℚ) : Go Scrape Unit :=
  Go.update (fun s => { s with e := g.set ((g.get s.e).Set v) s.e })

/-- The statement `ch <- g` on a gauge of the exporter. -/
def sendGauge (g : Ref exporter Gauge) : Go Scrape Unit :=
  Go.update (fun s => { s with ch := s.ch ++ [(g.get s.e).metric] })

/-- The statement `c.Add(v)` on a counter of the exporter. -/
def counterAdd (c : Ref exporter Counter) (v : ℚ) : Go Scrape Unit := do
  let s ← Go.read
  let c1 ← Go.orPanic ((c.get s.e).Add v)
  Go.update (fun s => { s with e := c.set c1 s.e })

/-- The statement `ch <- c` on a counter of the exporter. -/
def sendCounter (c : Ref exporter Counter) : Go Scrape Unit :=
  Go.update (fun s => { s with ch := s.ch ++ [(c.get s.e).metric] })

/-- The loop of `collectPerDatabaseGauge`. -/
def collectPerDatabaseGaugeLoop (vec : Ref exporter GaugeVec) (collectFunc : dbStats → ℚ) :
    List dbStats → Go Scrape Unit
  | [] => pure ()
  | dbs :: rest => do
    let s ← Go.read
    let child ← Go.orPanic ((vec.get s.e).WithLabelValues [dbs.database])
    Go.update (fun s => { s with e := vec.set (child.setChild [dbs.database] (collectFunc dbs)) s.e })
    collectPerDatabaseGaugeLoop vec collectFunc rest

/-- Embedding of `collectPerDatabaseGauge`. -/
def collectPerDatabaseGauge (stats : stats) (vec : Ref exporter GaugeVec)
    (collectFunc : dbStats → ℚ) : Go Scrape Unit := do
  collectPerDatabaseGaugeLoop vec collectFunc stats.dbStats
  Go.update (fun s => { s with ch := s.ch ++ (vec.get s.e).Collect })

/-- The loop of `collectPerDatabaseCounter`. -/
def collectPerDatabaseCounterLoop (vec : Ref exporter CounterVec) (collectFunc : dbStats → ℚ) :
    List dbStats → Go Scrape Unit
  | [] => pure ()
  | dbs :: rest => do
    let s ← Go.read
    let child ← Go.orPanic ((vec.get s.e).WithLabelValues [dbs.database])
    Go.update (fun s => { s with e := vec.set child s.e })
    let added ← Go.orPanic (child.addChild [dbs.database] (collectFunc dbs))
    Go.update (fun s => { s with e := vec.set added s.e })
    collectPerDatabaseCounterLoop vec collectFunc rest

/-- Embedding of `collectPerDatabaseCounter`. -/
def collectPerDatabaseCounter (stats : stats) (vec : Ref exporter CounterVec)
    (collectFunc : dbStats → ℚ) : Go Scrape Unit := do
  collectPerDatabaseCounterLoop vec collectFunc stats.dbStats
  Go.update (fun s => { s with ch := s.ch ++ (vec.get s.e).Collect })

namespace exporter

/-- The field `e.up`. -/
def upRef : Ref exporter Gauge := ⟨(·.up), fun v e => { e with up := v }⟩
/-- The field `e.workingSet`. -/
def workingSetRef : Ref exporter Gauge := ⟨(·.workingSet), fun v e => { e with workingSet := v }⟩
/-- The field `e.cpuTime`. -/
def cpuTimeRef : Ref exporter Counter := ⟨(·.cpuTime), fun v e => { e with cpuTime := v }⟩
/-- The field `e.isLeader`. -/
def isLeaderRef : Ref exporter Gauge := ⟨(·.isLeader), fun v e => { e with isLeader := v }⟩
/-- The field `e.requestTotal`. -/
def requestTotalRef : Ref exporter Counter :=
  ⟨(·.requestTotal), fun v e => { e with requestTotal := v }⟩
/-- The field `e.documentPutTotal`. -/
def documentPutTotalRef : Ref exporter Counter :=
  ⟨(·.documentPutTotal), fun v e => { e with documentPutTotal := v }⟩
/-- The field `e.documentPutBytes`. -/
def documentPutBytesRef : Ref exporter Counter :=
  ⟨(·.documentPutBytes), fun v e => { e with documentPutBytes := v }⟩
/-- The field `e.mapIndexIndexedTotal`. -/
def mapIndexIndexedTotalRef : Ref exporter Counter :=
  ⟨(·.mapIndexIndexedTotal), fun v e => { e with mapIndexIndexedTotal := v }⟩
/-- The field `e.mapReduceIndexMappedTotal`. -/
def mapReduceIndexMappedTotalRef : Ref exporter Counter :=
  ⟨(·.mapReduceIndexMappedTotal), fun v e => { e with mapReduceIndexMappedTotal := v }⟩
/-- The field `e.mapReduceIndexReducedTotal`. -/
def mapReduceIndexReducedTotalRef : Ref exporter Counter :=
  ⟨(·.mapReduceIndexReducedTotal), fun v e => { e with mapReduceIndexReducedTotal := v }⟩
/-- The field `e.databaseDocuments`. -/
def databaseDocumentsRef : Ref exporter GaugeVec :=
  ⟨(·.databaseDocuments), fun v e => { e with databaseDocuments := v }⟩
/-- The field `e.databaseIndexes`. -/
def databaseIndexesRef : Ref exporter GaugeVec :=
  ⟨(·.databaseIndexes), fun v e => { e with databaseIndexes := v }⟩
/-- The field `e.databaseStaleIndexes`. -/
def databaseStaleIndexesRef : Ref exporter GaugeVec :=
  ⟨(·.databaseStaleIndexes), fun v e => { e with databaseStaleIndexes := v }⟩
/-- The field `e.databaseSize`. -/
def databaseSizeRef : Ref exporter GaugeVec :=
  ⟨(·.databaseSize), fun v e => { e with databaseSize := v }⟩
/-- The field `e.databaseRequestTotal`. -/
def databaseRequestTotalRef : Ref exporter CounterVec :=
  ⟨(·.databaseRequestTotal), fun v e => { e with databaseRequestTotal := v }⟩
/-- The field `e.databaseDocumentPutTotal`. -/
def databaseDocumentPutTotalRef : Ref exporter CounterVec :=
  ⟨(·.databaseDocumentPutTotal), fun v e => { e with databaseDocumentPutTotal := v }⟩
/-- The field `e.databaseDocumentPutBytes`. -/
def databaseDocumentPutBytesRef : Ref exporter CounterVec :=
  ⟨(·.databaseDocumentPutBytes), fun v e => { e with databaseDocumentPutBytes := v }⟩
/-- The field `e.databaseMapIndexIndexedTotal`. -/
def databaseMapIndexIndexedTotalRef : Ref exporter CounterVec :=
  ⟨(·.databaseMapIndexIndexedTotal), fun v e => { e with databaseMapIndexIndexedTotal := v }⟩
/-- The field `e.databaseMapReduceIndexMappedTotal`. -/
def databaseMapReduceIndexMappedTotalRef : Ref exporter CounterVec :=
  ⟨(·.databaseMapReduceIndexMappedTotal),
    fun v e => { e with databaseMapReduceIndexMappedTotal := v }⟩
/-- The field `e.databaseMapReduceIndexReducedTotal`. -/
def databaseMapReduceIndexReducedTotalRef : Ref exporter CounterVec :=
  ⟨(·.databaseMapReduceIndexReducedTotal),
    fun v e => { e with databaseMapReduceIndexReducedTotal := v }⟩

/-- Embedding of `exporter.Collect`. The function `getStats` is declared outside the two source
files: its result, a stats snapshot or an error, is the argument `getStats`. -/
def Collect (getStats : Except GoError stats) : Go Scrape Unit :=
  match getStats with
  | .error _ => do
    gaugeSet upRef 0
    sendGauge upRef
  | .ok stats => do
    gaugeSet upRef 1
    sendGauge upRef

    gaugeSet workingSetRef (getMemoryWorkingSet stats)
    sendGauge workingSetRef

    counterAdd cpuTimeRef (← Go.orPanic (getCPUTime stats))
    sendCounter cpuTimeRef

    gaugeSet isLeaderRef (getIsLeader stats)
    sendGauge isLeaderRef

    counterAdd requestTotalRef (getRequestTotal stats)
    sendCounter requestTotalRef

    counterAdd documentPutTotalRef (getDocumentPutTotal stats)
    sendCounter documentPutTotalRef

    counterAdd documentPutBytesRef (getDocumentPutBytesTotal stats)
    sendCounter documentPutBytesRef

    counterAdd mapIndexIndexedTotalRef (getMapIndexIndexedTotal stats)
    sendCounter mapIndexIndexedTotalRef

    counterAdd mapReduceIndexMappedTotalRef (getMapReduceIndexMappedTotal stats)
    sendCounter mapReduceIndexMappedTotalRef

    counterAdd mapReduceIndexReducedTotalRef (getMapReduceIndexReducedTotal stats)
    sendCounter mapReduceIndexReducedTotalRef

    collectPerDatabaseGauge stats databaseDocumentsRef getDatabaseDocuments
    collectPerDatabaseGauge stats databaseIndexesRef getDatabaseIndexes
    collectPerDatabaseGauge stats databaseStaleIndexesRef getDatabaseStaleIndexes
    collectPerDatabaseGauge stats databaseSizeRef getDatabaseSize

    collectPerDatabaseCounter stats databaseRequestTotalRef getDatabaseRequestTotal
    collectPerDatabaseCounter stats databaseDocumentPutBytesRef getDatabaseDocumentPutBytes
    collectPerDatabaseCounter stats databaseDocumentPutTotalRef getDatabaseDocumentPutTotal

    collectPerDatabaseCounter stats databaseMapIndexIndexedTotalRef getDatabaseMapIndexIndexedTotal
    collectPerDatabaseCounter stats databaseMapReduceIndexMappedTotalRef
      getDatabaseMapReduceIndexMappedTotal
    collectPerDatabaseCounter stats databaseMapReduceIndexReducedTotalRef
      getDatabaseMapReduceIndexReducedTotal

end exporter

/-- The exporter after a `Collect`, the metrics it sent, and whether it returned. -/
def exporter.runCollect (e : exporter) (getStats : Except GoError stats) :
    Option Unit × Scrape :=
  exporter.Collect getStats ⟨e, []⟩

/-! ## `fromQueryCollector.go`: query definitions -/

/-- The struct `Query`. `LabelFields` is `none` for the nil slice; `Interval` is a
`time.Duration`, a signed number of nanoseconds. -/
structure Query where
  Name : String
  RQL : String
  Database : String
  ValueOnError : ℚ
  ValueField : String
  LabelFields : Option (List String)
  Interval : Int
  deriving DecidableEq

/-- The files a load can see: `ReadDir` gives the names in a directory (as `ioutil.ReadDir`
does, in name order) or an error, `decode` gives for the file at a path the outcome of
`os.Open`, `ioutil.ReadAll` and `yaml.Unmarshal` into a list of queries. -/
structure FileSystem where
  ReadDir : String → Except GoError (List String)
  decode : String → Except GoError (List Query)

/-- Library function `strings.HasSuffix`. -/
def HasSuffix (s suffix : String) : Bool := suffix.data.isSuffixOf s.data

/-- Library function `strings.TrimRight`: `s` without its trailing characters that are in
`cutset`. -/
def TrimRight (s cutset : String) : String :=
  String.mk (s.data.reverse.dropWhile (fun c => cutset.data.contains c)).reverse

/-- The loop over the queries of one file: the first invalid query ends the load with an error,
a valid query is appended to `result`. -/
def validateQueries : List Query → List Query → Except GoError (List Query)
  | [], result => .ok result
  | query :: rest, result =>
    if query.Name = "" then .error "Query name missed!"
    else if query.Database = "" then
      .error ("No database specified for query [" ++ query.Name ++ "]")
    else if query.RQL = "" then
      .error ("RQL statement required for query [" ++ query.Name ++ "]")
    else if query.Interval = 0 then
      .error ("Interval must be greater than zero for query [" ++ query.Name ++ "]")
    else if query.ValueField = "" then
      .error ("ValueField required for query [" ++ query.Name ++ "]")
    else validateQueries rest (result ++ [query])

/-- The loop over the files of the directory. -/
def loadFiles (fs : FileSystem) (path : String) :
    List String → List Query → Except GoError (List Query)
  | [], result => .ok result
  | fn :: files, result =>
    if HasSuffix fn ".yml" then
      let fn := TrimRight path "/" ++ "/" ++ fn
      match fs.decode fn with
      | .error err => .error err
      | .ok fromFileQueries =>
        match validateQueries fromFileQueries result with
        | .error err => .error err
        | .ok result => loadFiles fs path files result
    else loadFiles fs path files result

/-- Embedding of `loadQueriesFromDir`: the list returned (`none` is nil) and the error returned
(`none` is nil). -/
def loadQueriesFromDir (fs : FileSystem) (path : String) : Option (List Query) × Option GoError :=
  let result : List Query := []
  if path = "" then (some result, none)
  else
    match fs.ReadDir path with
    | .error err => (none, some err)
    | .ok files =>
      match loadFiles fs path files result with
      | .error err => (none, some err)
      | .ok result => (some result, none)

/-! ## `fromQueryCollector.go`: the query collector -/

/-- Library function `model.IsValidMetricName`. -/
def IsValidMetricName (n : String) : Bool :=
  !n.data.isEmpty &&
  n.data.enum.all (fun (i, b) => b.isAlpha || b = '_' || b = ':' || (b.isDigit && i > 0))

/-- Library function `prometheus.checkLabelName`: a valid label name that does not start with
`__`. -/
def checkLabelName (l : String) : Bool :=
  (!l.data.isEmpty &&
    l.data.enum.all (fun (i, b) => b.isAlpha || b = '_' || (b.isDigit && i > 0))) &&
  !"__".data.isPrefixOf l.data

/-- The descriptor carries no error: valid metric name, valid and distinct label names. -/
def Desc.valid (d : Desc) : Bool :=
  IsValidMetricName d.fqName && d.variableLabels.all checkLabelName &&
  decide d.variableLabels.Nodup

/-- The default registry: the descriptors registered so far. -/
abbrev Registry := List Desc

/-- Library function `prometheus.MustRegister` of a collector with one descriptor: panics when the
descriptor carries an error or a metric of that name is registered already. -/
def MustRegister (d : Desc) : Go Registry Unit := do
  let registry ← Go.read
  if d.valid && !(registry.any (fun r => r.fqName = d.fqName)) then
    Go.update (fun registry => registry ++ [d])
  else Go.panic

/-- Library function `prometheus.NewGaugeVec` with the name and help of the options and the given
label names. -/
def NewGaugeVec (name help : String) (labelNames : List String) : GaugeVec :=
  ⟨⟨BuildFQName "" "" name, help, labelNames⟩, []⟩

/-- Embedding of `createMetricObj`. -/
def createMetricObj (query : Query) : Go Registry GaugeVec := do
  let metric := NewGaugeVec ("ravendb_queryresult_" ++ query.Name)
    ("Result of an RQL query " ++ query.Name) (query.LabelFields.getD [])
  MustRegister metric.desc
  pure metric

/-- The state of one run of `readAndSetMetrics`: the gauge vector and the variable
`globalErr`. -/
structure RowState where
  metric : GaugeVec
  globalErr : Option GoError

/-- The loop over the label fields in the callback of `readAndSetMetrics`: the label map, or
the error of the first label that cannot be read. -/
def readLabels (node : Json) : List String → GoMap String → Except GoError (GoMap String)
  | [], labelValues => .ok labelValues
  | label :: rest, labelValues =>
    match GetString node [label] with
    | (_, some err) => .error err
    | (labelValue, none) => readLabels node rest (labelValues.set label labelValue)

/-- The callback that `readAndSetMetrics` passes to `ArrayEach`, for one element `node`. -/
def rowCallback (query : Query) (node : Json) : Go RowState Unit :=
  match GetFloat node [query.ValueField] with
  | (_, some err) => Go.update (fun s => { s with globalErr := some err })
  | (value, none) =>
    match query.LabelFields with
    | some labelFields =>
      match readLabels node labelFields [] with
      | .error err => Go.update (fun s => { s with globalErr := some err })
      | .ok labelValues => do
        let s ← Go.read
        let (child, lvs) ← Go.orPanic (s.metric.With labelValues)
        Go.update (fun s => { s with metric := child.setChild lvs value })
    | none => do
      let s ← Go.read
      let child ← Go.orPanic (s.metric.WithLabelValues [])
      Go.update (fun s => { s with metric := child.setChild [] value })

/-- The calls of the callback on the elements of the array, in order. -/
def eachRow (query : Query) : List Json → Go RowState Unit
  | [] => pure ()
  | node :: rest => do
    rowCallback query node
    eachRow query rest

/-- Embedding of `readAndSetMetrics`, a computation on the gauge vector `metric` that returns
the error. The function `get` is declared outside the two source files: its result, the
response or an error, is the argument `response`. -/
def readAndSetMetrics (query : Query) (response : Except GoError Json) :
    Go GaugeVec (Option GoError) :=
  match response with
  | .error err => pure (some err)
  | .ok response => fun metric =>
    match eachRow query (ArrayEach response ["Results"]).1 ⟨metric, none⟩ with
    | (some _, s) => (some s.globalErr, s.metric)
    | (none, s) => (none, s.metric)

/-- One iteration of the loop of `runQueryCollector`, up to the wait for the interval. -/
def runQueryCollectorIteration (query : Query) (response : Except GoError Json) :
    Go GaugeVec Unit := do
  let err ← readAndSetMetrics query response
  match err with
  | some _ => do
    let metric ← Go.read
    let child ← Go.orPanic (metric.WithLabelValues [])
    Go.update (fun _ => child.setChild [] query.ValueOnError)
  | none => pure ()

/-- Embedding of `runQueryCollector`: the iterations of its endless loop for the successive
results of `get`. -/
def runQueryCollector (query : Query) : List (Except GoError Json) → Go GaugeVec Unit
  | [] => pure ()
  | response :: rest => do
    runQueryCollectorIteration query response
    runQueryCollector query rest

/-- The gauge vector is the one `createMetricObj` registered for the query (in some state of
the registry), with any series. -/
def IsMetricOf (query : Query) (metric : GaugeVec) : Prop :=
  ∃ (registry : Registry) (created : GaugeVec) (registry1 : Registry),
    createMetricObj query registry = (some created, registry1) ∧ metric.desc = created.desc

/-! ## Specification-side definitions -/

/-- The index entries of a database stats document: the elements of its `Indexes` field when
that field is an array. -/
def indexEntries (doc : Json) : Option (List Json) :=
  match doc with
  | .obj fields =>
    match fields.lookup "Indexes" with
    | some (.arr entries) => some entries
    | _ => none
  | _ => none

/-- The `IsStale` field of an index entry is the boolean `true`. -/
def isStaleTrue (entry : Json) : Bool :=
  match entry with
  | .obj fields =>
    match fields.lookup "IsStale" with
    | some (.bool true) => true
    | _ => false
  | _ => false

/-- A property of the scrape state that the computation keeps, whether it returns or panics. -/
def Preserves {σ α : Type} (P : σ → Prop) (m : Go σ α) : Prop :=
  ∀ s, P s → P (m s).2

/-- Assigning through the pointer leaves the field `up` of the exporter as it is. -/
def KeepsUp {τ : Type} (r : Ref exporter τ) : Prop :=
  ∀ v e, (r.set v e).up = e.up

/-- The property kept by every statement after the first two of a successful `Collect`: `up`
is 1 and the first metric on the channel is `first`. -/
def UpIsOne (first : Metric) (s : Scrape) : Prop :=
  s.e.up.value = 1 ∧ s.ch.head? = some first

/-- The statements of a successful `Collect` that follow `e.up.Set(1); ch <- e.up`. -/
def collectAfterUp (stats : stats) : Go Scrape Unit := do
  gaugeSet exporter.workingSetRef (getMemoryWorkingSet stats)
  sendGauge exporter.workingSetRef
  counterAdd exporter.cpuTimeRef (← Go.orPanic (getCPUTime stats))
  sendCounter exporter.cpuTimeRef
  gaugeSet exporter.isLeaderRef (getIsLeader stats)
  sendGauge exporter.isLeaderRef
  counterAdd exporter.requestTotalRef (getRequestTotal stats)
  sendCounter exporter.requestTotalRef
  counterAdd exporter.documentPutTotalRef (getDocumentPutTotal stats)
  sendCounter exporter.documentPutTotalRef
  counterAdd exporter.documentPutBytesRef (getDocumentPutBytesTotal stats)
  sendCounter exporter.documentPutBytesRef
  counterAdd exporter.mapIndexIndexedTotalRef (getMapIndexIndexedTotal stats)
  sendCounter exporter.mapIndexIndexedTotalRef
  counterAdd exporter.mapReduceIndexMappedTotalRef (getMapReduceIndexMappedTotal stats)
  sendCounter exporter.mapReduceIndexMappedTotalRef
  counterAdd exporter.mapReduceIndexReducedTotalRef (getMapReduceIndexReducedTotal stats)
  sendCounter exporter.mapReduceIndexReducedTotalRef
  collectPerDatabaseGauge stats exporter.databaseDocumentsRef getDatabaseDocuments
  collectPerDatabaseGauge stats exporter.databaseIndexesRef getDatabaseIndexes
  collectPerDatabaseGauge stats exporter.databaseStaleIndexesRef getDatabaseStaleIndexes
  collectPerDatabaseGauge stats exporter.databaseSizeRef getDatabaseSize
  collectPerDatabaseCounter stats exporter.databaseRequestTotalRef getDatabaseRequestTotal
  collectPerDatabaseCounter stats exporter.databaseDocumentPutBytesRef getDatabaseDocumentPutBytes
  collectPerDatabaseCounter stats exporter.databaseDocumentPutTotalRef getDatabaseDocumentPutTotal
  collectPerDatabaseCounter stats exporter.databaseMapIndexIndexedTotalRef getDatabaseMapIndexIndexedTotal
  collectPerDatabaseCounter stats exporter.databaseMapReduceIndexMappedTotalRef
    getDatabaseMapReduceIndexMappedTotal
  collectPerDatabaseCounter stats exporter.databaseMapReduceIndexReducedTotalRef
    getDatabaseMapReduceIndexReducedTotal

/-- A stats snapshot with one database, `db1`, and a CPU time of one second. -/
def oneDatabaseStats : stats :=
  { cpu := .obj [("CpuStats", .arr [.obj [("TotalProcessorTime", .str "00:00:01")]])],
    memory := .obj [("WorkingSet", .num 100)],
    nodeInfo := .obj [("CurrentState", .str "Leader")],
    metrics := .obj [],
    dbStats := [⟨"db1", .obj [], .obj []⟩] }

/-- A required field of the query definition is empty or zero: `Name`, `Database`, `RQL`,
`Interval` or `ValueField`. -/
def Query.invalid (q : Query) : Bool :=
  q.Name = "" || q.Database = "" || q.RQL = "" || q.Interval = 0 || q.ValueField = ""

/-- The definitions of the `.yml` files of a directory, in file order and then in-file order,
when `decoded` gives the definitions of each file. -/
def ymlQueries (names : List String) (decoded : String → List Query) : List Query :=
  (names.filter (fun fn => HasSuffix fn ".yml")).flatMap decoded

/-- A valid query definition used in examples. -/
def sampleQuery : Query :=
  { Name := "orders", RQL := "from Orders", Database := "shop", ValueOnError := -1,
    ValueField := "value", LabelFields := some ["region"], Interval := 5000000000 }

/-- A directory with two `.yml` files and one other file. -/
def sampleFiles : FileSystem :=
  { ReadDir := fun _ => .ok ["a.yml", "notes.txt", "b.yml"],
    decode := fun fn =>
      if fn = "queries/a.yml" then .ok [sampleQuery]
      else if fn = "queries/b.yml" then .ok [{ sampleQuery with Name := "users" }]
      else .error "open: no such file" }

/-- The definitions of the files of `sampleFiles`, by file name. -/
def sampleDecoded (fn : String) : List Query :=
  if fn = "a.yml" then [sampleQuery]
  else if fn = "b.yml" then [{ sampleQuery with Name := "users" }]
  else []

/-- A directory with one `.yml` file whose only definition has a negative interval. -/
def negativeIntervalFiles : FileSystem :=
  { ReadDir := fun _ => .ok ["a.yml"],
    decode := fun _ => .ok [{ sampleQuery with Interval := -5000000000 }] }

/-- The numeric value field of a result row. -/
def rowValue (query : Query) (row : Json) : Option ℚ :=
  match Get row [query.ValueField] with
  | some (.num v) => some v
  | _ => none

/-- The string at a label field of a result row. -/
def rowLabel (row : Json) (label : String) : Option String :=
  match Get row [label] with
  | some (.str s) => some s
  | _ => none

/-- The sample a result row yields when its value field is a number and each configured label
field is a string: the label strings in the order of the label fields, and the value. -/
def rowSample (query : Query) (row : Json) : Option (List String × ℚ) :=
  match rowValue query row, findAll (rowLabel row) (query.LabelFields.getD []) with
  | some v, some lvs => some (lvs, v)
  | _, _ => none

/-- The value of the last row, among those that yield a sample, with the given label strings. -/
def lastSample (query : Query) (rows : List Json) (lvs : List String) : Option ℚ :=
  ((rows.filterMap (rowSample query)).reverse).lookup lvs

/-- The gauge vector after the series of the sample's label strings is set to its value. -/
def publish (metric : GaugeVec) (sample : List String × ℚ) : GaugeVec :=
  GaugeVec.setChild { metric with series := getOrCreate metric.series sample.1 } sample.1 sample.2

/-- The gauge vector `createMetricObj` gives for `sampleQuery`. -/
def sampleMetric : GaugeVec :=
  ⟨⟨"ravendb_queryresult_orders", "Result of an RQL query orders", ["region"]⟩, []⟩

/-- A response with the rows `{value: 5, region: "eu"}` and `{value: 7, region: "us"}`. -/
def twoRows : Json :=
  .obj [("Results", .arr [
    .obj [("value", .num 5), ("region", .str "eu")],
    .obj [("value", .num 7), ("region", .str "us")]])]

/-- A response whose second row of three has no value field. -/
def failingMiddleRow : Json :=
  .obj [("Results", .arr [
    .obj [("value", .num 5), ("region", .str "eu")],
    .obj [("region", .str "asia")],
    .obj [("value", .num 7), ("region", .str "us")]])]

/-! ## The duration parser -/

theorem digit_ne_dot {c : Char} (h : c.isDigit = true) : c ≠ '.' := by
  rintro rfl; revert h; decide

theorem digit_ne_colon {c : Char} (h : c.isDigit = true) : c ≠ ':' := by
  rintro rfl; revert h; decide

theorem run_digit_cons (c : Char) (cs : List Char) (caps : Caps) :
    run .digit (c :: cs, caps) = if c.isDigit then [(cs, caps)] else [] := by
  simp [run]

theorem run_digit_nil (caps : Caps) : run .digit ([], caps) = [] := by
  simp [run]

theorem run_char_cons (a c : Char) (cs : List Char) (caps : Caps) :
    run (.char a) (c :: cs, caps) = if c = a then [(cs, caps)] else [] := by
  simp [run]

theorem run_char_nil (a : Char) (caps : Caps) : run (.char a) ([], caps) = [] := by
  simp [run]

theorem plusN_digit_stop (n : Nat) (c : Char) (rest : List Char) (caps : Caps)
    (hc : c.isDigit = false) :
    plusN (fun t1 => run .digit t1) n (c :: rest, caps) = [] := by
  cases n with
  | zero => rfl
  | succ k => simp [plusN, run_digit_cons, hc]

theorem plusN_digit_head (ds : List Char) (hne : ds ≠ []) (hd : allDigits ds = true)
    (c : Char) (rest : List Char) (caps : Caps) (hc : c.isDigit = false) (n : Nat)
    (hn : ds.length ≤ n) :
    (plusN (fun t1 => run .digit t1) n (ds ++ c :: rest, caps)).head? = some (c :: rest, caps) := by
  induction ds generalizing n with
  | nil => exact absurd rfl hne
  | cons d ds ih =>
    cases n with
    | zero => simp at hn
    | succ k =>
      have hd1 : d.isDigit = true := by simp [allDigits] at hd; exact hd.1
      have hd2 : allDigits ds = true := by simp [allDigits] at hd ⊢; exact hd.2
      cases ds with
      | nil =>
        simp [plusN, run_digit_cons, hd1, plusN_digit_stop _ _ _ _ hc]
      | cons d2 ds2 =>
        have := ih (by simp) hd2 k (by simpa using hn)
        simp only [plusN, List.cons_append, run_digit_cons, hd1, if_true, List.flatMap_cons,
          List.flatMap_nil, List.append_nil]
        rw [List.cons_append] at this
        rw [List.head?_append, this]
        rfl


theorem run_concat (a b : Regexp) (t : Thread) :
    run (.concat a b) t = (run a t).flatMap (fun t1 => run b t1) := rfl

theorem run_quest (a : Regexp) (t : Thread) : run (.quest a) t = run a t ++ [t] := rfl

theorem run_plus (a : Regexp) (t : Thread) :
    run (.plus a) t = plusN (fun t1 => run a t1) t.1.length t := rfl

theorem run_rep (n : Nat) (a : Regexp) (t : Thread) :
    run (.rep n a) t = repeatN (fun t1 => run a t1) n t := rfl

theorem run_capture (i : Nat) (name : String) (a : Regexp) (t : Thread) :
    run (.capture i name a) t =
      (run a t).map (fun t1 => (t1.1, (i, t.1.take (t.1.length - t1.1.length)) :: t1.2)) := rfl

theorem head?_flatMap_of_head {α β : Type} (l : List α) (f : α → List β) (x : α) (y : β)
    (hl : l.head? = some x) (hf : (f x).head? = some y) : (l.flatMap f).head? = some y := by
  cases l with
  | nil => simp at hl
  | cons a tl =>
    simp at hl
    subst hl
    simp [List.head?_append, hf]

theorem take_length_sub (a b : List Char) : (a ++ b).take ((a ++ b).length - b.length) = a := by
  simp

theorem timespanRegex_eq : timespanRegex = .concat timespanDays timespanTail := rfl

theorem run_tail_plain (h1 h2 m1 m2 s1 s2 : Char) (caps : Caps)
    (hh1 : h1.isDigit = true) (hh2 : h2.isDigit = true) (hm1 : m1.isDigit = true)
    (hm2 : m2.isDigit = true) (hs1 : s1.isDigit = true) (hs2 : s2.isDigit = true) :
    run timespanTail ([h1, h2, ':', m1, m2, ':', s1, s2], caps) =
      [([], (5, [s1, s2]) :: (4, [m1, m2]) :: (3, [h1, h2]) :: caps)] := by
  simp [timespanTail, run_concat, run_quest, run_rep, run_capture, repeatN, run_digit_cons,
    run_char_cons, run_char_nil, run_digit_nil, hh1, hh2, hm1, hm2, hs1, hs2]

theorem run_tail_fraction (h1 h2 m1 m2 s1 s2 f1 f2 f3 f4 f5 f6 f7 : Char) (caps : Caps)
    (hh1 : h1.isDigit = true) (hh2 : h2.isDigit = true) (hm1 : m1.isDigit = true)
    (hm2 : m2.isDigit = true) (hs1 : s1.isDigit = true) (hs2 : s2.isDigit = true)
    (hf1 : f1.isDigit = true) (hf2 : f2.isDigit = true) (hf3 : f3.isDigit = true)
    (hf4 : f4.isDigit = true) (hf5 : f5.isDigit = true) (hf6 : f6.isDigit = true)
    (hf7 : f7.isDigit = true) :
    (run timespanTail
      ([h1, h2, ':', m1, m2, ':', s1, s2, '.', f1, f2, f3, f4, f5, f6, f7], caps)).head? =
      some ([], (6, ['.', f1, f2, f3, f4, f5, f6, f7]) :: (7, [f1, f2, f3, f4, f5, f6, f7]) ::
        (5, [s1, s2]) :: (4, [m1, m2]) :: (3, [h1, h2]) :: caps) := by
  simp [timespanTail, run_concat, run_quest, run_rep, run_capture, repeatN, run_digit_cons,
    run_char_cons, run_char_nil, run_digit_nil, hh1, hh2, hm1, hm2, hs1, hs2, hf1, hf2, hf3, hf4,
    hf5, hf6, hf7]

theorem run_days_absent (h1 h2 : Char) (rest : List Char) (caps : Caps)
    (hh1 : h1.isDigit = true) (hh2 : h2.isDigit = true) :
    run timespanDays (h1 :: h2 :: ':' :: rest, caps) = [(h1 :: h2 :: ':' :: rest, caps)] := by
  have hc : (':' : Char).isDigit = false := by decide
  simp [timespanDays, run_concat, run_quest, run_plus, run_capture, plusN, run_digit_cons,
    run_char_cons, hh1, hh2, plusN_digit_stop _ _ _ _ hc, digit_ne_dot hh2]

theorem run_days_present (ds : List Char) (hne : ds ≠ []) (hd : allDigits ds = true)
    (rest : List Char) (caps : Caps) :
    (run timespanDays (ds ++ '.' :: rest, caps)).head? =
      some (rest, (1, ds ++ ['.']) :: (2, ds) :: caps) := by
  have hc : ('.' : Char).isDigit = false := by decide
  have h := plusN_digit_head ds hne hd '.' rest caps hc (ds ++ '.' :: rest).length (by simp)
  simp only [timespanDays, run_quest, run_capture, run_concat, run_plus]
  have h2 : ((plusN (fun t1 => run .digit t1) (ds ++ '.' :: rest).length
      (ds ++ '.' :: rest, caps)).map (fun t1 : Thread =>
        (t1.1, (2, (ds ++ '.' :: rest).take ((ds ++ '.' :: rest).length - t1.1.length)) ::
          t1.2))).head? = some ('.' :: rest, (2, ds) :: caps) := by
    rw [List.head?_map, h]
    simp
  have h3 := head?_flatMap_of_head _ (fun t1 => run (.char '.') t1) _ (rest, (2, ds) :: caps) h2
    (by simp [run_char_cons])
  rw [List.head?_append, List.head?_map, h3]
  have h4 : ds.length + (rest.length + 1) - rest.length = (ds ++ ['.']).length := by
    simp; omega
  have h5 : ds ++ '.' :: rest = (ds ++ ['.']) ++ rest := by simp
  simp only [Option.map_some', Option.or_some, List.length_append, List.length_cons,
    Option.some.injEq, Prod.mk.injEq, List.cons.injEq, true_and, and_true]
  rw [h4, h5, List.take_left]


theorem findFrom_of_head (regex : Regexp) (c : Char) (cs : List Char) (t : Thread)
    (h : (run regex (c :: cs, [])).head? = some t) :
    findFrom regex (c :: cs) = some (c :: cs, t) := by
  unfold findFrom
  cases hr : run regex (c :: cs, []) with
  | nil => rw [hr] at h; simp at h
  | cons a tl =>
    rw [hr] at h
    simp at h
    subst h
    rfl

theorem matchNamedGroups_of_submatch (text w g1 g2 g3 g4 g5 g6 g7 : String)
    (h : FindStringSubmatch timespanRegex text = [w, g1, g2, g3, g4, g5, g6, g7]) :
    matchNamedGroups timespanRegex text =
      some [("secondfraction", g7), ("seconds", g5), ("minutes", g4), ("hours", g3),
        ("days", g2)] := by
  unfold matchNamedGroups
  rw [h]
  rfl

theorem timeSpanToSeconds_of_submatch (text w g1 g2 g3 g4 g5 g6 g7 : String)
    (h : FindStringSubmatch timespanRegex text = [w, g1, g2, g3, g4, g5, g6, g7]) :
    timeSpanToSeconds text =
      some (Float64.add (Float64.add (Float64.add (Float64.add
        (Float64.add 0
          (Float64.mul (Float64.mul (Float64.mul (Float64.ofInt (Atoi g2).1) 24) 60) 60))
        (Float64.mul (Float64.mul (Float64.ofInt (Atoi g3).1) 60) 60))
        (Float64.mul (Float64.ofInt (Atoi g4).1) 60))
        (Float64.ofInt (Atoi g5).1))
        (Float64.div (Float64.ofInt (Atoi g7).1) 10000000)) := by
  unfold timeSpanToSeconds
  rw [matchNamedGroups_of_submatch text w g1 g2 g3 g4 g5 g6 g7 h]
  rfl

theorem digit_toNat_le {c : Char} (h : c.isDigit = true) : c.toNat - 48 ≤ 9 := by
  simp only [Char.isDigit, Bool.and_eq_true, decide_eq_true_eq] at h
  have h2 : c.val.toNat ≤ 57 := h.2
  simp only [Char.toNat]
  omega

theorem parseDigits_eq (cs : List Char) (acc : Nat) (hd : allDigits cs = true) :
    parseDigits cs acc = some (cs.foldl (fun acc c => acc * 10 + (c.toNat - 48)) acc) := by
  induction cs generalizing acc with
  | nil => rfl
  | cons c cs ih =>
    simp only [allDigits, List.all_cons, Bool.and_eq_true] at hd
    simp only [parseDigits, hd.1, if_true, List.foldl_cons]
    exact ih _ hd.2

theorem foldl_digits_lt (cs : List Char) (acc : Nat) (hd : allDigits cs = true) :
    cs.foldl (fun acc c => acc * 10 + (c.toNat - 48)) acc < (acc + 1) * 10 ^ cs.length := by
  induction cs generalizing acc with
  | nil => simp
  | cons c cs ih =>
    simp only [allDigits, List.all_cons, Bool.and_eq_true] at hd
    have h1 := digit_toNat_le hd.1
    have h2 := ih (acc * 10 + (c.toNat - 48)) hd.2
    simp only [List.foldl_cons, List.length_cons]
    calc _ < (acc * 10 + (c.toNat - 48) + 1) * 10 ^ cs.length := h2
      _ ≤ ((acc + 1) * 10) * 10 ^ cs.length := Nat.mul_le_mul_right _ (by omega)
      _ = (acc + 1) * 10 ^ (cs.length + 1) := by ring

theorem decimalValue_lt (cs : List Char) (hd : allDigits cs = true) :
    decimalValue cs < 10 ^ cs.length := by
  have := foldl_digits_lt cs 0 hd
  simpa [decimalValue] using this

theorem Atoi_empty : Atoi "" = (0, true) := rfl

theorem Atoi_digits (ds : List Char) (hne : ds ≠ []) (hd : allDigits ds = true)
    (hle : (decimalValue ds : Int) ≤ maxInt) :
    Atoi (String.mk ds) = ((decimalValue ds : Int), false) := by
  cases ds with
  | nil => exact absurd rfl hne
  | cons c cs =>
    have hc : c.isDigit = true := by
      simp only [allDigits, List.all_cons, Bool.and_eq_true] at hd; exact hd.1
    have hp : c ≠ '+' := by rintro rfl; revert hc; decide
    have hm : c ≠ '-' := by rintro rfl; revert hc; decide
    have hparse := parseDigits_eq (c :: cs) 0 hd
    unfold Atoi
    simp only
    split
    · rename_i h; simp at h
    · rename_i h; simp at h; exact absurd h.1 hp
    · rename_i h; simp at h; exact absurd h.1 hm
    · rw [hparse]
      have : ¬ ((decimalValue (c :: cs) : Int) > maxInt) := not_lt.mpr hle
      simp [decimalValue] at this ⊢
      exact this


theorem list_length_two {cs : List Char} (h : cs.length = 2) : ∃ a b, cs = [a, b] := by
  match cs, h with
  | [a, b], _ => exact ⟨a, b, rfl⟩

theorem list_length_seven {cs : List Char} (h : cs.length = 7) :
    ∃ a b c d e f g, cs = [a, b, c, d, e, f, g] := by
  match cs, h with
  | [a, b, c, d, e, f, g], _ => exact ⟨a, b, c, d, e, f, g, rfl⟩


theorem FindStringSubmatch_of_head (c : Char) (cs : List Char) (caps : Caps)
    (h : (run timespanRegex (c :: cs, [])).head? = some ([], caps)) :
    FindStringSubmatch timespanRegex (String.mk (c :: cs)) =
      [String.mk (c :: cs), groupText caps 1, groupText caps 2, groupText caps 3,
        groupText caps 4, groupText caps 5, groupText caps 6, groupText caps 7] := by
  unfold FindStringSubmatch
  rw [findFrom_of_head _ _ _ _ h]
  simp [groupNames, timespanRegex, List.range, List.range.loop]

theorem run_timespanRegex_days (ds : List Char) (hne : ds ≠ []) (hd : allDigits ds = true)
    (tail : List Char) (caps : Caps)
    (htail : (run timespanTail (tail, [(1, ds ++ ['.']), (2, ds)])).head? = some ([], caps)) :
    (run timespanRegex (ds ++ '.' :: tail, [])).head? = some ([], caps) := by
  rw [timespanRegex_eq, run_concat]
  exact head?_flatMap_of_head _ _ _ _ (run_days_present ds hne hd tail []) htail

/-- The groups that `timespanRegex` captures on a well-formed duration text. -/
theorem FindStringSubmatch_render (t : DurationText) (hwf : t.wellFormed = true) :
    FindStringSubmatch timespanRegex t.render =
      [t.render,
        (match t.days with | some d => String.mk (d ++ ['.']) | none => ""),
        (match t.days with | some d => String.mk d | none => ""),
        String.mk t.hours, String.mk t.minutes, String.mk t.seconds,
        (match t.fraction with | some f => String.mk ('.' :: f) | none => ""),
        (match t.fraction with | some f => String.mk f | none => "")] := by
  obtain ⟨days, hours, minutes, seconds, fraction⟩ := t
  simp only [DurationText.wellFormed, Bool.and_eq_true, beq_iff_eq] at hwf
  obtain ⟨⟨⟨⟨hdays, hlh, hdh⟩, hlm, hdm⟩, hls, hds⟩, hfrac⟩ := hwf
  obtain ⟨h1, h2, rfl⟩ := list_length_two hlh
  obtain ⟨m1, m2, rfl⟩ := list_length_two hlm
  obtain ⟨s1, s2, rfl⟩ := list_length_two hls
  simp only [allDigits, List.all_cons, List.all_nil, Bool.and_true, Bool.and_eq_true] at hdh hdm hds
  cases days with
  | none =>
    cases fraction with
    | none =>
      have hrun : (run timespanRegex ([h1, h2, ':', m1, m2, ':', s1, s2], [])).head? =
          some ([], [(5, [s1, s2]), (4, [m1, m2]), (3, [h1, h2])]) := by
        rw [timespanRegex_eq, run_concat, run_days_absent _ _ _ _ hdh.1 hdh.2]
        simp [run_tail_plain _ _ _ _ _ _ _ hdh.1 hdh.2 hdm.1 hdm.2 hds.1 hds.2]
      have := FindStringSubmatch_of_head _ _ _ hrun
      simp only [DurationText.render]
      simpa [groupText, List.lookup] using this
    | some f =>
      simp only [Bool.and_eq_true, beq_iff_eq] at hfrac
      obtain ⟨f1, f2, f3, f4, f5, f6, f7, rfl⟩ := list_length_seven hfrac.1
      have hdf := hfrac.2
      simp only [allDigits, List.all_cons, List.all_nil, Bool.and_true, Bool.and_eq_true] at hdf
      obtain ⟨hf1, hf2, hf3, hf4, hf5, hf6, hf7⟩ := hdf
      have hrun : (run timespanRegex
          ([h1, h2, ':', m1, m2, ':', s1, s2, '.', f1, f2, f3, f4, f5, f6, f7], [])).head? =
          some ([], [(6, ['.', f1, f2, f3, f4, f5, f6, f7]), (7, [f1, f2, f3, f4, f5, f6, f7]),
            (5, [s1, s2]), (4, [m1, m2]), (3, [h1, h2])]) := by
        rw [timespanRegex_eq, run_concat, run_days_absent _ _ _ _ hdh.1 hdh.2]
        simp only [List.flatMap_cons, List.flatMap_nil, List.append_nil]
        exact run_tail_fraction _ _ _ _ _ _ _ _ _ _ _ _ _ _ hdh.1 hdh.2 hdm.1 hdm.2 hds.1 hds.2
          hf1 hf2 hf3 hf4 hf5 hf6 hf7
      have := FindStringSubmatch_of_head _ _ _ hrun
      simp only [DurationText.render]
      simpa [groupText, List.lookup] using this
  | some d =>
    simp only [Bool.and_eq_true, Bool.not_eq_true', List.isEmpty_eq_false] at hdays
    obtain ⟨hne, hdd⟩ := hdays
    cases d with
    | nil => simp at hne
    | cons c d =>
    cases fraction with
    | none =>
      have hrun := run_timespanRegex_days (c :: d) (by simp) hdd
        [h1, h2, ':', m1, m2, ':', s1, s2] _
        (by rw [run_tail_plain _ _ _ _ _ _ _ hdh.1 hdh.2 hdm.1 hdm.2 hds.1 hds.2]; rfl)
      have := FindStringSubmatch_of_head _ _ _ hrun
      simp only [DurationText.render]
      simpa [groupText, List.lookup] using this
    | some f =>
      simp only [Bool.and_eq_true, beq_iff_eq] at hfrac
      obtain ⟨f1, f2, f3, f4, f5, f6, f7, rfl⟩ := list_length_seven hfrac.1
      have hdf := hfrac.2
      simp only [allDigits, List.all_cons, List.all_nil, Bool.and_true, Bool.and_eq_true] at hdf
      obtain ⟨hf1, hf2, hf3, hf4, hf5, hf6, hf7⟩ := hdf
      have hrun := run_timespanRegex_days (c :: d) (by simp) hdd
        [h1, h2, ':', m1, m2, ':', s1, s2, '.', f1, f2, f3, f4, f5, f6, f7] _
        (run_tail_fraction _ _ _ _ _ _ _ _ _ _ _ _ _ _ hdh.1 hdh.2 hdm.1 hdm.2 hds.1 hds.2
          hf1 hf2 hf3 hf4 hf5 hf6 hf7)
      have := FindStringSubmatch_of_head _ _ _ hrun
      simp only [DurationText.render]
      simpa [groupText, List.lookup] using this


theorem Atoi_fixed (cs : List Char) (n : Nat) (hl : cs.length = n) (hn : 0 < n) (hn18 : n ≤ 18)
    (hd : allDigits cs = true) : Atoi (String.mk cs) = ((decimalValue cs : Int), false) := by
  have hne : cs ≠ [] := by
    intro h; rw [h] at hl; simp at hl; omega
  have hlt := decimalValue_lt cs hd
  rw [hl] at hlt
  have : (10 : Nat) ^ n ≤ 10 ^ 18 := Nat.pow_le_pow_right (by norm_num) hn18
  apply Atoi_digits cs hne hd
  unfold maxInt
  have h3 : decimalValue cs < 10 ^ 18 := lt_of_lt_of_le hlt this
  omega

theorem log2Fuel_le (fuel n k : Nat) (h : n < 2 ^ (k + 1)) : log2Fuel fuel n ≤ k := by
  induction fuel generalizing n k with
  | zero => simp [log2Fuel]
  | succ fuel ih =>
    unfold log2Fuel
    split
    · rename_i h2
      cases k with
      | zero => simp at h; omega
      | succ k =>
        have : n / 2 < 2 ^ (k + 1) := by
          rw [Nat.div_lt_iff_lt_mul (by norm_num)]
          calc n < 2 ^ (k + 1 + 1) := h
            _ = 2 ^ (k + 1) * 2 := by ring
        have := ih (n / 2) k this
        omega
    · omega

/-- Rounding keeps a natural number below `2^53`: it is a `float64`. -/
theorem round64_natCast (k : Nat) (h : k < 2 ^ 53) : round64 (k : ℚ) = (k : ℚ) := by
  by_cases hk : k = 0
  · subst hk; simp [round64]
  have hx : (k : ℚ) ≠ 0 := by exact_mod_cast hk
  have hlog : natLog2 k ≤ 52 := log2Fuel_le k k 52 h
  have hone : natLog2 1 = 0 := by decide
  have hfl : floorLog2 k 1 ≤ 52 := by
    unfold floorLog2
    simp only [hone]
    split <;> omega
  obtain ⟨s, hs⟩ : ∃ s : Nat, (52 : Int) - floorLog2 k 1 = (s : Int) :=
    ⟨((52 : Int) - floorLog2 k 1).toNat, by omega⟩
  have hpos : ¬ ((k : ℚ) < 0) := by
    have : (0 : ℚ) ≤ (k : ℚ) := Nat.cast_nonneg k
    exact not_lt.mpr this
  unfold round64
  simp only [hx, if_false, Rat.num_natCast, Int.natAbs_ofNat, Rat.den_natCast, hs,
    Int.toNat_ofNat, Int.toNat_neg_nat, pow_zero, mul_one, Nat.div_one, Nat.mod_one, hpos,
    one_mul]
  simp

theorem round64_natCast_mul (a b : Nat) (h : a * b < 2 ^ 53) :
    round64 ((a : ℚ) * (b : ℚ)) = ((a * b : Nat) : ℚ) := by
  have := round64_natCast (a * b) h
  rw [Nat.cast_mul] at this ⊢
  exact this

theorem round64_natCast_add (a b : Nat) (h : a + b < 2 ^ 53) :
    round64 ((a : ℚ) + (b : ℚ)) = ((a + b : Nat) : ℚ) := by
  have := round64_natCast (a + b) h
  rw [Nat.cast_add] at this ⊢
  exact this

/-- The `float64` value computed from the captured groups when the whole seconds are below
`2^53`: every integer step is exact, the fraction and the last sum are rounded. -/
theorem float_chain (d hh mm ss f : Nat)
    (hsmall : d * 86400 + hh * 3600 + mm * 60 + ss < 2 ^ 53) (hf : f < 2 ^ 53) :
    Float64.add (Float64.add (Float64.add (Float64.add
        (Float64.add 0
          (Float64.mul (Float64.mul (Float64.mul (Float64.ofInt (d : Int)) 24) 60) 60))
        (Float64.mul (Float64.mul (Float64.ofInt (hh : Int)) 60) 60))
        (Float64.mul (Float64.ofInt (mm : Int)) 60))
        (Float64.ofInt (ss : Int)))
        (Float64.div (Float64.ofInt (f : Int)) 10000000) =
      round64 (((d * 86400 + hh * 3600 + mm * 60 + ss : Nat) : ℚ) +
        round64 ((f : ℚ) / 10000000)) := by
  unfold Float64.add Float64.mul Float64.div Float64.ofInt
  simp only [Int.cast_natCast]
  have c24 : (24 : ℚ) = ((24 : Nat) : ℚ) := by norm_num
  have c60 : (60 : ℚ) = ((60 : Nat) : ℚ) := by norm_num
  rw [round64_natCast d (by omega), round64_natCast hh (by omega),
    round64_natCast mm (by omega), round64_natCast ss (by omega),
    round64_natCast f hf, c24, c60,
    round64_natCast_mul d 24 (by omega), round64_natCast_mul (d * 24) 60 (by omega),
    round64_natCast_mul (d * 24 * 60) 60 (by omega),
    round64_natCast_mul hh 60 (by omega), round64_natCast_mul (hh * 60) 60 (by omega),
    round64_natCast_mul mm 60 (by omega), zero_add,
    round64_natCast (d * 24 * 60 * 60) (by omega),
    round64_natCast_add (d * 24 * 60 * 60) (hh * 60 * 60) (by omega),
    round64_natCast_add (d * 24 * 60 * 60 + hh * 60 * 60) (mm * 60) (by omega),
    round64_natCast_add (d * 24 * 60 * 60 + hh * 60 * 60 + mm * 60) ss (by omega)]
  have e : d * 24 * 60 * 60 + hh * 60 * 60 + mm * 60 + ss =
      d * 86400 + hh * 3600 + mm * 60 + ss := by ring
  rw [e]

theorem exactSeconds_eq (t : DurationText) :
    t.exactSeconds = (t.wholeSeconds : ℚ) + (t.fractionValue : ℚ) / 10000000 := by
  unfold DurationText.exactSeconds DurationText.wholeSeconds
  push_cast
  ring

/-- C1 (amended): for every duration text `[d.]hh:mm:ss[.fffffff]` whose whole seconds
`d*86400 + hh*3600 + mm*60 + ss` are below `2^53`, `timeSpanToSeconds` returns the `float64`
nearest to the whole seconds plus the `float64` nearest to `fffffff/10000000`; this is exactly
the whole seconds when the fraction is absent, and exactly
`d*86400 + hh*3600 + mm*60 + ss + fffffff/10000000` whenever the fraction and that total are
`float64` values. -/
theorem timeSpanToSeconds_rounds_fraction (t : DurationText) (hwf : t.wellFormed = true)
    (hsmall : t.wholeSeconds < 9007199254740992) :
    timeSpanToSeconds t.render =
      some (round64 ((t.wholeSeconds : ℚ) + round64 ((t.fractionValue : ℚ) / 10000000))) ∧
    (t.fraction = none → timeSpanToSeconds t.render = some (t.wholeSeconds : ℚ)) ∧
    (round64 ((t.fractionValue : ℚ) / 10000000) = (t.fractionValue : ℚ) / 10000000 →
      round64 t.exactSeconds = t.exactSeconds →
      timeSpanToSeconds t.render = some t.exactSeconds) := by
  have hmain : timeSpanToSeconds t.render =
      some (round64 ((t.wholeSeconds : ℚ) + round64 ((t.fractionValue : ℚ) / 10000000))) := by
    rw [timeSpanToSeconds_of_submatch _ _ _ _ _ _ _ _ _ (FindStringSubmatch_render t hwf)]
    simp only [DurationText.wellFormed, Bool.and_eq_true, beq_iff_eq] at hwf
    obtain ⟨⟨⟨⟨hdays, hlh, hdh⟩, hlm, hdm⟩, hls, hds⟩, hfrac⟩ := hwf
    rw [Atoi_fixed _ 2 hlh (by norm_num) (by norm_num) hdh,
      Atoi_fixed _ 2 hlm (by norm_num) (by norm_num) hdm,
      Atoi_fixed _ 2 hls (by norm_num) (by norm_num) hds]
    have hw : t.daysValue * 86400 + decimalValue t.hours * 3600 + decimalValue t.minutes * 60 +
        decimalValue t.seconds < 2 ^ 53 := by
      have := hsmall
      unfold DurationText.wholeSeconds at this
      norm_num
      exact this
    have hday : (Atoi (match t.days with | some d => String.mk d | none => "")).1 =
        (t.daysValue : Int) := by
      unfold DurationText.daysValue at hw ⊢
      cases hd : t.days with
      | none => rfl
      | some d =>
        simp only [hd, Bool.and_eq_true, Bool.not_eq_true', List.isEmpty_eq_false] at hdays
        simp only [hd] at hw
        have hfit : (decimalValue d : Int) ≤ maxInt := by
          unfold maxInt
          norm_num at hw
          omega
        simp only [Atoi_digits d (by simpa using hdays.1) hdays.2 hfit]
    have hfr : (Atoi (match t.fraction with | some f => String.mk f | none => "")).1 =
        (t.fractionValue : Int) ∧ t.fractionValue < 2 ^ 53 := by
      unfold DurationText.fractionValue
      cases hf : t.fraction with
      | none => exact ⟨rfl, by norm_num⟩
      | some f =>
        simp only [hf, Bool.and_eq_true, beq_iff_eq] at hfrac
        have hlt := decimalValue_lt f hfrac.2
        rw [hfrac.1] at hlt
        refine ⟨by simp only [Atoi_fixed f 7 hfrac.1 (by norm_num) (by norm_num) hfrac.2], ?_⟩
        norm_num at hlt ⊢
        omega
    rw [hday, hfr.1, float_chain _ _ _ _ _ hw hfr.2]
    rfl
  refine ⟨hmain, ?_, ?_⟩
  · intro hnone
    rw [hmain]
    have hz : t.fractionValue = 0 := by
      unfold DurationText.fractionValue
      rw [hnone]
    have h0 : round64 (0 : ℚ) = 0 := by simp [round64]
    rw [hz]
    simp only [Nat.cast_zero, zero_div, h0, add_zero]
    rw [round64_natCast _ (by norm_num; exact hsmall)]
  · intro hq hexact
    rw [hmain, hq, ← exactSeconds_eq, hexact]

/-- Instance of C1 (amended): `"1.02:03:04.5000000"` gives 93784.5. -/
theorem timeSpanToSeconds_rounds_fraction_witness :
    timeSpanToSeconds "1.02:03:04.5000000" = some (93784.5 : ℚ) := by
  have h := (timeSpanToSeconds_rounds_fraction dayAndHalfSecond (by decide)
    (by decide)).2.2 (by decide!) (by decide!)
  have e : dayAndHalfSecond.exactSeconds = (93784.5 : ℚ) := by decide!
  rw [e] at h
  exact h

/-- C1 as stated fails: `"00:00:00.1000000"` gives the `float64` nearest to one tenth, which is
not `1/10`; and `"10000000000000000000.00:00:00"`, whose days value `Atoi` saturates to
`2^63 - 1`, gives `2^63 * 86400`, not `10^19 * 86400`. -/
theorem timeSpanToSeconds_not_exact :
    (tenthOfSecond.wellFormed = true ∧
      tenthOfSecond.render = "00:00:00.1000000" ∧
      tenthOfSecond.exactSeconds = 1 / 10 ∧
      timeSpanToSeconds "00:00:00.1000000" =
        some (3602879701896397 / 36028797018963968) ∧
      timeSpanToSeconds "00:00:00.1000000" ≠ some tenthOfSecond.exactSeconds) ∧
    (hugeDays.wellFormed = true ∧
      hugeDays.render = "10000000000000000000.00:00:00" ∧
      hugeDays.exactSeconds = 10000000000000000000 * 86400 ∧
      timeSpanToSeconds "10000000000000000000.00:00:00" = some (9223372036854775808 * 86400) ∧
      timeSpanToSeconds "10000000000000000000.00:00:00" ≠ some hugeDays.exactSeconds) := by
  decide!

theorem timeSpanToSeconds_of_no_match (text : String)
    (h : FindStringSubmatch timespanRegex text = []) : timeSpanToSeconds text = none := by
  unfold timeSpanToSeconds matchNamedGroups
  rw [h]
  rfl

/-- C2: on a text with no match of the duration pattern, `"not-a-duration"` or the empty
string, `FindStringSubmatch` gives the nil slice and `timeSpanToSeconds` panics on the index
`matches[2]` instead of returning 0; on `"00:00:00"` it returns 0. -/
theorem timeSpanToSeconds_panics_without_match :
    FindStringSubmatch timespanRegex "not-a-duration" = [] ∧
    timeSpanToSeconds "not-a-duration" = none ∧
    FindStringSubmatch timespanRegex "" = [] ∧
    timeSpanToSeconds "" = none ∧
    timeSpanToSeconds "00:00:00" = some 0 := by
  decide!

/-! ## The stats collector -/

theorem Get_single (data : Json) (key : String) : Get data [key] = data.step key := rfl

theorem GetBoolean_isStale (entry : Json) :
    (GetBoolean entry ["IsStale"]).1 = isStaleTrue entry := by
  unfold GetBoolean isStaleTrue
  rw [Get_single]
  cases entry with
  | obj fields =>
    simp only [Json.step]
    cases h : fields.lookup "IsStale" with
    | none => rfl
    | some v => cases v <;> try rfl
                rename_i b; cases b <;> rfl
  | arr elems =>
    have : arrayIndex "IsStale" = none := by decide
    simp only [Json.step, this]
  | _ => rfl

theorem ArrayEach_indexes (doc : Json) :
    (ArrayEach doc ["Indexes"]).1 = (indexEntries doc).getD [] := by
  unfold ArrayEach indexEntries
  rw [Get_single]
  cases doc with
  | obj fields =>
    simp only [Json.step]
    cases h : fields.lookup "Indexes" with
    | none => rfl
    | some v => cases v <;> rfl
  | arr elems =>
    have : arrayIndex "Indexes" = none := by decide
    simp only [Json.step, this]
    rfl
  | _ => rfl

theorem foldl_count_stale (entries : List Json) (n : Nat) :
    entries.foldl (fun count value =>
        let isStale := (GetBoolean value ["IsStale"]).1
        if isStale then count + 1 else count) n = n + entries.countP isStaleTrue := by
  induction entries generalizing n with
  | nil => simp
  | cons entry rest ih =>
    rw [List.foldl_cons, ih, List.countP_cons, GetBoolean_isStale]
    cases isStaleTrue entry <;> simp
    omega

/-- C9: `getDatabaseStaleIndexes` returns exactly the number of entries of the `Indexes` array
whose `IsStale` field is the boolean `true`; entries with `IsStale` false, missing or not a
boolean are not counted, and a missing or non-array `Indexes` gives 0. -/
theorem getDatabaseStaleIndexes_counts_stale (d : dbStats) :
    getDatabaseStaleIndexes d =
      (((indexEntries d.databaseStats).getD []).countP isStaleTrue : ℚ) := by
  unfold getDatabaseStaleIndexes
  rw [ArrayEach_indexes, foldl_count_stale, Nat.zero_add]

theorem getDatabaseStaleIndexes_three_indexes_one_stale :
    getDatabaseStaleIndexes ⟨"db1", .obj [("Indexes", .arr [.obj [("IsStale", .bool false)],
      .obj [("IsStale", .bool true)], .obj [("Name", .str "x")]])], .obj []⟩ = 1 := by
  decide!

theorem preserves_bind {σ α β : Type} (P : σ → Prop) (m : Go σ α) (f : α → Go σ β)
    (hm : Preserves P m) (hf : ∀ a, Preserves P (f a)) : Preserves P (m >>= f) := by
  intro s hs
  show P ((match m s with
    | (some a, s1) => f a s1
    | (none, s1) => (none, s1)) : Option β × σ).2
  have h1 := hm s hs
  cases h : m s with
  | mk r s1 =>
    rw [h] at h1
    cases r with
    | none => exact h1
    | some a => exact hf a s1 h1

theorem preserves_pure {σ α : Type} (P : σ → Prop) (a : α) : Preserves P (pure a : Go σ α) :=
  fun _ hs => hs

theorem preserves_read {σ : Type} (P : σ → Prop) : Preserves P (Go.read : Go σ σ) :=
  fun _ hs => hs

theorem preserves_orPanic {σ α : Type} (P : σ → Prop) (o : Option α) :
    Preserves P (Go.orPanic o : Go σ α) := by
  cases o with
  | none => exact fun _ hs => hs
  | some a => exact fun _ hs => hs

theorem preserves_update {σ : Type} (P : σ → Prop) (f : σ → σ) (hf : ∀ s, P s → P (f s)) :
    Preserves P (Go.update f) :=
  fun s hs => hf s hs

theorem preserves_gaugeSet (first : Metric) (g : Ref exporter Gauge) (v : ℚ) (hg : KeepsUp g) :
    Preserves (UpIsOne first) (gaugeSet g v) := by
  apply preserves_update
  intro s hs
  exact ⟨by show (g.set _ s.e).up.value = 1; rw [hg]; exact hs.1, hs.2⟩

theorem head?_append_of_head {α : Type} (l m : List α) (x : α) (h : l.head? = some x) :
    (l ++ m).head? = some x := by
  cases l with
  | nil => simp at h
  | cons a tl => simpa using h

theorem preserves_sendGauge (first : Metric) (g : Ref exporter Gauge) :
    Preserves (UpIsOne first) (sendGauge g) := by
  apply preserves_update
  intro s hs
  exact ⟨hs.1, head?_append_of_head _ _ _ hs.2⟩

theorem preserves_sendCounter (first : Metric) (c : Ref exporter Counter) :
    Preserves (UpIsOne first) (sendCounter c) := by
  apply preserves_update
  intro s hs
  exact ⟨hs.1, head?_append_of_head _ _ _ hs.2⟩

theorem preserves_counterAdd (first : Metric) (c : Ref exporter Counter) (v : ℚ)
    (hc : KeepsUp c) : Preserves (UpIsOne first) (counterAdd c v) := by
  unfold counterAdd
  refine preserves_bind (UpIsOne first) _ _ (preserves_read _) ?_
  intro s0
  refine preserves_bind (UpIsOne first) _ _ (preserves_orPanic _ _) ?_
  intro c1
  apply preserves_update
  intro s hs
  exact ⟨by show (c.set _ s.e).up.value = 1; rw [hc]; exact hs.1, hs.2⟩

theorem preserves_gaugeLoop (first : Metric) (vec : Ref exporter GaugeVec)
    (collectFunc : dbStats → ℚ) (hv : KeepsUp vec) (dbs : List dbStats) :
    Preserves (UpIsOne first) (collectPerDatabaseGaugeLoop vec collectFunc dbs) := by
  induction dbs with
  | nil => exact preserves_pure _ _
  | cons d rest ih =>
    unfold collectPerDatabaseGaugeLoop
    refine preserves_bind (UpIsOne first) _ _ (preserves_read _) ?_
    intro s0
    refine preserves_bind (UpIsOne first) _ _ (preserves_orPanic _ _) ?_
    intro child
    apply preserves_bind (UpIsOne first)
    · apply preserves_update
      intro s hs
      exact ⟨by show (vec.set _ s.e).up.value = 1; rw [hv]; exact hs.1, hs.2⟩
    · intro _
      exact ih

theorem preserves_collectPerDatabaseGauge (first : Metric) (stats : stats)
    (vec : Ref exporter GaugeVec) (collectFunc : dbStats → ℚ) (hv : KeepsUp vec) :
    Preserves (UpIsOne first) (collectPerDatabaseGauge stats vec collectFunc) := by
  unfold collectPerDatabaseGauge
  refine preserves_bind (UpIsOne first) _ _ (preserves_gaugeLoop first vec collectFunc hv _) ?_
  intro _
  apply preserves_update
  intro s hs
  exact ⟨hs.1, head?_append_of_head _ _ _ hs.2⟩

theorem preserves_counterLoop (first : Metric) (vec : Ref exporter CounterVec)
    (collectFunc : dbStats → ℚ) (hv : KeepsUp vec) (dbs : List dbStats) :
    Preserves (UpIsOne first) (collectPerDatabaseCounterLoop vec collectFunc dbs) := by
  induction dbs with
  | nil => exact preserves_pure _ _
  | cons d rest ih =>
    unfold collectPerDatabaseCounterLoop
    refine preserves_bind (UpIsOne first) _ _ (preserves_read _) ?_
    intro s0
    refine preserves_bind (UpIsOne first) _ _ (preserves_orPanic _ _) ?_
    intro child
    apply preserves_bind (UpIsOne first)
    · apply preserves_update
      intro s hs
      exact ⟨by show (vec.set _ s.e).up.value = 1; rw [hv]; exact hs.1, hs.2⟩
    · intro _
      refine preserves_bind (UpIsOne first) _ _ (preserves_orPanic _ _) ?_
      intro added
      apply preserves_bind (UpIsOne first)
      · apply preserves_update
        intro s hs
        exact ⟨by show (vec.set _ s.e).up.value = 1; rw [hv]; exact hs.1, hs.2⟩
      · intro _
        exact ih

theorem preserves_collectPerDatabaseCounter (first : Metric) (stats : stats)
    (vec : Ref exporter CounterVec) (collectFunc : dbStats → ℚ) (hv : KeepsUp vec) :
    Preserves (UpIsOne first) (collectPerDatabaseCounter stats vec collectFunc) := by
  unfold collectPerDatabaseCounter
  refine preserves_bind (UpIsOne first) _ _ (preserves_counterLoop first vec collectFunc hv _) ?_
  intro _
  apply preserves_update
  intro s hs
  exact ⟨hs.1, head?_append_of_head _ _ _ hs.2⟩

theorem Collect_ok_eq (stats : stats) :
    exporter.Collect (.ok stats) =
      (gaugeSet exporter.upRef 1 >>= fun _ => sendGauge exporter.upRef >>= fun _ =>
        collectAfterUp stats) := rfl

theorem preserves_collectAfterUp (first : Metric) (stats : stats) :
    Preserves (UpIsOne first) (collectAfterUp stats) := by
  unfold collectAfterUp
  have g : ∀ (r : Ref exporter Gauge) (v : ℚ) (rest : Go Scrape Unit), KeepsUp r →
      Preserves (UpIsOne first) rest →
      Preserves (UpIsOne first) (gaugeSet r v >>= fun _ => sendGauge r >>= fun _ => rest) :=
    fun r v rest hr hrest =>
      preserves_bind _ _ _ (preserves_gaugeSet first r v hr) fun _ =>
        preserves_bind _ _ _ (preserves_sendGauge first r) fun _ => hrest
  have c : ∀ (r : Ref exporter Counter) (v : ℚ) (rest : Go Scrape Unit), KeepsUp r →
      Preserves (UpIsOne first) rest →
      Preserves (UpIsOne first) (counterAdd r v >>= fun _ => sendCounter r >>= fun _ => rest) :=
    fun r v rest hr hrest =>
      preserves_bind _ _ _ (preserves_counterAdd first r v hr) fun _ =>
        preserves_bind _ _ _ (preserves_sendCounter first r) fun _ => hrest
  have gv : ∀ (r : Ref exporter GaugeVec) (f : dbStats → ℚ) (rest : Go Scrape Unit), KeepsUp r →
      Preserves (UpIsOne first) rest →
      Preserves (UpIsOne first) (collectPerDatabaseGauge stats r f >>= fun _ => rest) :=
    fun r f rest hr hrest =>
      preserves_bind _ _ _ (preserves_collectPerDatabaseGauge first stats r f hr) fun _ => hrest
  have cv : ∀ (r : Ref exporter CounterVec) (f : dbStats → ℚ) (rest : Go Scrape Unit),
      KeepsUp r → Preserves (UpIsOne first) rest →
      Preserves (UpIsOne first) (collectPerDatabaseCounter stats r f >>= fun _ => rest) :=
    fun r f rest hr hrest =>
      preserves_bind _ _ _ (preserves_collectPerDatabaseCounter first stats r f hr) fun _ => hrest
  refine g exporter.workingSetRef _ _ (fun _ _ => rfl) ?_
  refine preserves_bind (UpIsOne first) _ _ (preserves_orPanic _ _) fun cpu => ?_
  refine c exporter.cpuTimeRef _ _ (fun _ _ => rfl) ?_
  refine g exporter.isLeaderRef _ _ (fun _ _ => rfl) ?_
  refine c exporter.requestTotalRef _ _ (fun _ _ => rfl) ?_
  refine c exporter.documentPutTotalRef _ _ (fun _ _ => rfl) ?_
  refine c exporter.documentPutBytesRef _ _ (fun _ _ => rfl) ?_
  refine c exporter.mapIndexIndexedTotalRef _ _ (fun _ _ => rfl) ?_
  refine c exporter.mapReduceIndexMappedTotalRef _ _ (fun _ _ => rfl) ?_
  refine c exporter.mapReduceIndexReducedTotalRef _ _ (fun _ _ => rfl) ?_
  refine gv exporter.databaseDocumentsRef _ _ (fun _ _ => rfl) ?_
  refine gv exporter.databaseIndexesRef _ _ (fun _ _ => rfl) ?_
  refine gv exporter.databaseStaleIndexesRef _ _ (fun _ _ => rfl) ?_
  refine gv exporter.databaseSizeRef _ _ (fun _ _ => rfl) ?_
  refine cv exporter.databaseRequestTotalRef _ _ (fun _ _ => rfl) ?_
  refine cv exporter.databaseDocumentPutBytesRef _ _ (fun _ _ => rfl) ?_
  refine cv exporter.databaseDocumentPutTotalRef _ _ (fun _ _ => rfl) ?_
  refine cv exporter.databaseMapIndexIndexedTotalRef _ _ (fun _ _ => rfl) ?_
  refine cv exporter.databaseMapReduceIndexMappedTotalRef _ _ (fun _ _ => rfl) ?_
  exact preserves_collectPerDatabaseCounter first stats _ _ (fun _ _ => rfl)

/-- C8: when `getStats` returns an error, `Collect` sets `up` to 0, sends only the `up` metric
and leaves every other gauge, counter and per-database series as it was; when `getStats`
succeeds, `Collect` sets `up` to 1 (and sends it first), whatever happens afterwards. -/
theorem Collect_up (e : exporter) :
    (∀ err : GoError, exporter.runCollect e (.error err) =
      (some (), ⟨{ e with up := { e.up with value := 0 } }, [⟨e.up.desc, [], 0⟩]⟩)) ∧
    (∀ stats : stats,
      (exporter.runCollect e (.ok stats)).2.e.up.value = 1 ∧
      (exporter.runCollect e (.ok stats)).2.ch.head? = some ⟨e.up.desc, [], 1⟩) := by
  constructor
  · intro err
    rfl
  · intro stats
    unfold exporter.runCollect
    rw [Collect_ok_eq]
    exact preserves_collectAfterUp ⟨e.up.desc, [], 1⟩ stats _ ⟨rfl, rfl⟩

/-- C10: on a successful scrape with one database, `Collect` sends a series of
`ravendb_database_document_put_bytes_total`, a metric that `Describe` does not describe. -/
theorem Collect_sends_undescribed_metric :
    (exporter.runCollect newExporter (.ok oneDatabaseStats)).1 = some () ∧
    newExporter.databaseDocumentPutBytes.desc.fqName =
      "ravendb_database_document_put_bytes_total" ∧
    (⟨newExporter.databaseDocumentPutBytes.desc, ["db1"], 0⟩ : Metric) ∈
      (exporter.runCollect newExporter (.ok oneDatabaseStats)).2.ch ∧
    newExporter.databaseDocumentPutBytes.desc ∉ newExporter.Describe ∧
    ¬ ∃ d ∈ newExporter.Describe, d.fqName = "ravendb_database_document_put_bytes_total" := by
  decide!

/-! ## The query definition loader -/

theorem validateQueries_valid (qs result : List Query) (h : ∀ q ∈ qs, q.invalid = false) :
    validateQueries qs result = .ok (result ++ qs) := by
  induction qs generalizing result with
  | nil => simp [validateQueries]
  | cons q rest ih =>
    have hq := h q (List.mem_cons_self _ _)
    simp only [Query.invalid, Bool.or_eq_false_iff, decide_eq_false_iff_not] at hq
    obtain ⟨⟨⟨⟨h1, h2⟩, h3⟩, h4⟩, h5⟩ := hq
    unfold validateQueries
    simp only [h1, h2, h3, h4, h5, if_false]
    rw [ih _ (fun q hq => h q (List.mem_cons_of_mem _ hq))]
    simp

theorem validateQueries_invalid (qs result : List Query) (h : ∃ q ∈ qs, q.invalid = true) :
    ∃ err, validateQueries qs result = .error err := by
  induction qs generalizing result with
  | nil => obtain ⟨q, hq, _⟩ := h; simp at hq
  | cons q rest ih =>
    unfold validateQueries
    by_cases h1 : q.Name = ""
    · exact ⟨_, by simp only [h1, if_true]; rfl⟩
    by_cases h2 : q.Database = ""
    · exact ⟨_, by simp only [h1, h2, if_true, if_false]; rfl⟩
    by_cases h3 : q.RQL = ""
    · exact ⟨_, by simp only [h1, h2, h3, if_true, if_false]; rfl⟩
    by_cases h4 : q.Interval = 0
    · exact ⟨_, by simp only [h1, h2, h3, h4, if_true, if_false]; rfl⟩
    by_cases h5 : q.ValueField = ""
    · exact ⟨_, by simp only [h1, h2, h3, h4, h5, if_true, if_false]; rfl⟩
    simp only [h1, h2, h3, h4, h5, if_false]
    apply ih
    obtain ⟨q1, hq1, hinv⟩ := h
    rcases List.mem_cons.mp hq1 with rfl | hmem
    · simp [Query.invalid, h1, h2, h3, h4, h5] at hinv
    · exact ⟨q1, hmem, hinv⟩

theorem loadFiles_valid (fs : FileSystem) (path : String) (decoded : String → List Query)
    (names : List String) (result : List Query)
    (hdec : ∀ fn ∈ names, HasSuffix fn ".yml" = true →
      fs.decode (TrimRight path "/" ++ "/" ++ fn) = .ok (decoded fn))
    (h : ∀ q ∈ ymlQueries names decoded, q.invalid = false) :
    loadFiles fs path names result = .ok (result ++ ymlQueries names decoded) := by
  induction names generalizing result with
  | nil => simp [loadFiles, ymlQueries]
  | cons fn rest ih =>
    have hrest : ∀ fn ∈ rest, HasSuffix fn ".yml" = true →
        fs.decode (TrimRight path "/" ++ "/" ++ fn) = .ok (decoded fn) :=
      fun f hf => hdec f (List.mem_cons_of_mem _ hf)
    unfold loadFiles
    by_cases hs : HasSuffix fn ".yml" = true
    · have hy : ymlQueries (fn :: rest) decoded = decoded fn ++ ymlQueries rest decoded := by
        simp [ymlQueries, hs]
      rw [hy] at h ⊢
      simp only [hs, if_true, hdec fn (List.mem_cons_self _ _) hs]
      rw [validateQueries_valid _ _ (fun q hq => h q (List.mem_append_left _ hq))]
      simp only []
      rw [ih _ hrest (fun q hq => h q (List.mem_append_right _ hq))]
      simp
    · have hy : ymlQueries (fn :: rest) decoded = ymlQueries rest decoded := by
        simp [ymlQueries, hs]
      rw [hy] at h ⊢
      simp only [hs]
      exact ih _ hrest h

theorem loadFiles_invalid (fs : FileSystem) (path : String) (decoded : String → List Query)
    (names : List String) (result : List Query)
    (hdec : ∀ fn ∈ names, HasSuffix fn ".yml" = true →
      fs.decode (TrimRight path "/" ++ "/" ++ fn) = .ok (decoded fn))
    (h : ∃ q ∈ ymlQueries names decoded, q.invalid = true) :
    ∃ err, loadFiles fs path names result = .error err := by
  induction names generalizing result with
  | nil => obtain ⟨q, hq, _⟩ := h; simp [ymlQueries] at hq
  | cons fn rest ih =>
    have hrest : ∀ fn ∈ rest, HasSuffix fn ".yml" = true →
        fs.decode (TrimRight path "/" ++ "/" ++ fn) = .ok (decoded fn) :=
      fun f hf => hdec f (List.mem_cons_of_mem _ hf)
    unfold loadFiles
    by_cases hs : HasSuffix fn ".yml" = true
    · have hy : ymlQueries (fn :: rest) decoded = decoded fn ++ ymlQueries rest decoded := by
        simp [ymlQueries, hs]
      rw [hy] at h
      simp only [hs, if_true, hdec fn (List.mem_cons_self _ _) hs]
      by_cases hfile : ∃ q ∈ decoded fn, q.invalid = true
      · obtain ⟨err, herr⟩ := validateQueries_invalid (decoded fn) result hfile
        exact ⟨err, by rw [herr]⟩
      · have hv : ∀ q ∈ decoded fn, q.invalid = false := by
          intro q hq
          cases hi : q.invalid with
          | false => rfl
          | true => exact absurd ⟨q, hq, hi⟩ hfile
        rw [validateQueries_valid _ _ hv]
        simp only []
        apply ih _ hrest
        obtain ⟨q, hq, hinv⟩ := h
        rcases List.mem_append.mp hq with hq | hq
        · exact absurd ⟨q, hq, hinv⟩ hfile
        · exact ⟨q, hq, hinv⟩
    · have hy : ymlQueries (fn :: rest) decoded = ymlQueries rest decoded := by
        simp [ymlQueries, hs]
      rw [hy] at h
      simp only [hs]
      exact ih _ hrest h

/-- C3: for a non-empty directory path whose `.yml` files all decode, `loadQueriesFromDir`
returns an error together with the nil list if and only if some definition has an empty `Name`,
`Database`, `RQL` or `ValueField` or a zero `Interval`; otherwise it returns, without error,
every definition of every file, unchanged, in file order and then in-file order. -/
theorem loadQueriesFromDir_all_or_nothing (fs : FileSystem) (path : String)
    (names : List String) (decoded : String → List Query) (hpath : path ≠ "")
    (hdir : fs.ReadDir path = .ok names)
    (hdec : ∀ fn ∈ names, HasSuffix fn ".yml" = true →
      fs.decode (TrimRight path "/" ++ "/" ++ fn) = .ok (decoded fn)) :
    (((loadQueriesFromDir fs path).2.isSome ∧ (loadQueriesFromDir fs path).1 = none) ↔
      ∃ q ∈ ymlQueries names decoded, q.invalid = true) ∧
    ((¬ ∃ q ∈ ymlQueries names decoded, q.invalid = true) →
      loadQueriesFromDir fs path = (some (ymlQueries names decoded), none)) := by
  have hok : (¬ ∃ q ∈ ymlQueries names decoded, q.invalid = true) →
      loadQueriesFromDir fs path = (some (ymlQueries names decoded), none) := by
    intro hno
    have hv : ∀ q ∈ ymlQueries names decoded, q.invalid = false := by
      intro q hq
      cases hi : q.invalid with
      | false => rfl
      | true => exact absurd ⟨q, hq, hi⟩ hno
    unfold loadQueriesFromDir
    simp only [hpath, if_false, hdir, loadFiles_valid fs path decoded names [] hdec hv,
      List.nil_append]
  refine ⟨⟨?_, ?_⟩, hok⟩
  · intro hres
    by_contra hno
    rw [hok hno] at hres
    simp at hres
  · intro hinv
    obtain ⟨err, herr⟩ := loadFiles_invalid fs path decoded names [] hdec hinv
    unfold loadQueriesFromDir
    simp only [hpath, if_false, hdir, herr]
    exact ⟨rfl, trivial⟩

/-- Instance of C3: a directory with two valid `.yml` files and one other file. -/
theorem loadQueriesFromDir_all_or_nothing_witness :
    loadQueriesFromDir sampleFiles "queries" =
      (some [sampleQuery, { sampleQuery with Name := "users" }], none) :=
  (loadQueriesFromDir_all_or_nothing sampleFiles "queries" ["a.yml", "notes.txt", "b.yml"]
    sampleDecoded (by decide) rfl
    (by
      intro fn hfn hs
      simp only [List.mem_cons, List.mem_singleton, List.not_mem_nil, or_false] at hfn
      rcases hfn with rfl | rfl | rfl
      · rfl
      · exact absurd hs (by decide)
      · rfl)).2 (by decide)

/-- C4: a definition with a negative `Interval` is returned by `loadQueriesFromDir` without
error: only a zero `Interval` is rejected. -/
theorem loadQueriesFromDir_accepts_negative_interval :
    loadQueriesFromDir negativeIntervalFiles "queries" =
      (some [{ sampleQuery with Interval := -5000000000 }], none) ∧
    ¬ (0 < ({ sampleQuery with Interval := -5000000000 } : Query).Interval) := by
  decide!

/-! ## The query collector -/

theorem GetFloat_rowValue (query : Query) (row : Json) :
    (∃ v, rowValue query row = some v ∧ GetFloat row [query.ValueField] = (v, none)) ∨
    (rowValue query row = none ∧ ∃ x err, GetFloat row [query.ValueField] = (x, some err)) := by
  unfold rowValue GetFloat
  cases h : Get row [query.ValueField] with
  | none => exact Or.inr ⟨rfl, _, _, rfl⟩
  | some j =>
    cases j with
    | num v => exact Or.inl ⟨v, rfl, rfl⟩
    | _ => exact Or.inr ⟨rfl, _, _, rfl⟩

theorem GetString_rowLabel (row : Json) (label : String) :
    (∃ s, rowLabel row label = some s ∧ GetString row [label] = (s, none)) ∨
    (rowLabel row label = none ∧ ∃ x err, GetString row [label] = (x, some err)) := by
  unfold rowLabel GetString
  cases h : Get row [label] with
  | none => exact Or.inr ⟨rfl, _, _, rfl⟩
  | some j =>
    cases j with
    | str s => exact Or.inl ⟨s, rfl, rfl⟩
    | _ => exact Or.inr ⟨rfl, _, _, rfl⟩

theorem GoMap_set_fresh (m : GoMap String) (k v : String) (hk : ∀ e ∈ m, e.1 ≠ k) :
    m.set k v = (k, v) :: m := by
  unfold GoMap.set
  congr 1
  apply List.filter_eq_self.mpr
  intro e he
  simpa using hk e he

/-- Reading the labels of a row whose label fields are distinct strings gives the map from
each label field to its string, or an error when some label field is not a string. -/
theorem readLabels_spec (row : Json) (fields : List String) (acc : GoMap String)
    (hnodup : fields.Nodup) (hacc : ∀ e ∈ acc, e.1 ∉ fields) :
    (∃ lvs, findAll (rowLabel row) fields = some lvs ∧
      readLabels row fields acc = .ok ((fields.zip lvs).reverse ++ acc)) ∨
    (findAll (rowLabel row) fields = none ∧ ∃ err, readLabels row fields acc = .error err) := by
  induction fields generalizing acc with
  | nil => exact Or.inl ⟨[], rfl, by simp [readLabels]⟩
  | cons f rest ih =>
    have hn := List.nodup_cons.mp hnodup
    rcases GetString_rowLabel row f with ⟨s, hs, hg⟩ | ⟨hs, x, err, hg⟩
    · have hset : acc.set f s = (f, s) :: acc :=
        GoMap_set_fresh acc f s (fun e he h => hacc e he (h ▸ List.mem_cons_self _ _))
      have hacc1 : ∀ e ∈ ((f, s) :: acc : GoMap String), e.1 ∉ rest := by
        intro e he
        rcases List.mem_cons.mp he with rfl | he
        · exact hn.1
        · exact fun h => hacc e he (List.mem_cons_of_mem _ h)
      rcases ih ((f, s) :: acc) hn.2 hacc1 with ⟨lvs, hl, hr⟩ | ⟨hl, err, hr⟩
      · refine Or.inl ⟨s :: lvs, ?_, ?_⟩
        · simp [findAll, hs, hl]
        · unfold readLabels
          simp only [hg, hset, hr]
          simp
      · refine Or.inr ⟨?_, err, ?_⟩
        · simp [findAll, hs, hl]
        · unfold readLabels
          simp only [hg, hset, hr]
    · refine Or.inr ⟨?_, err, ?_⟩
      · simp [findAll, hs]
      · unfold readLabels
        simp only [hg]

theorem lookup_of_mem_nodup (L : List (String × String)) (hn : (L.map Prod.fst).Nodup)
    (k v : String) (h : (k, v) ∈ L) : L.lookup k = some v := by
  induction L with
  | nil => simp at h
  | cons p t ih =>
    obtain ⟨a, b⟩ := p
    simp only [List.map_cons, List.nodup_cons] at hn
    rcases List.mem_cons.mp h with heq | hmem
    · cases heq
      simp [List.lookup]
    · have hne : k ≠ a := by
        rintro rfl
        exact hn.1 (List.mem_map.mpr ⟨(k, v), hmem, rfl⟩)
      have hbeq : (k == a) = false := by simpa using hne
      simp only [List.lookup, hbeq]
      exact ih hn.2 hmem

theorem findAll_length {α β : Type} (g : α → Option β) (l : List α) (r : List β)
    (h : findAll g l = some r) : r.length = l.length := by
  induction l generalizing r with
  | nil => simp [findAll] at h; subst h; rfl
  | cons a t ih =>
    unfold findAll at h
    cases ha : g a with
    | none => simp [ha] at h
    | some b =>
      cases ht : findAll g t with
      | none => simp [ha, ht] at h
      | some bs =>
        simp [ha, ht] at h
        subst h
        simp [ih bs ht]

theorem findAll_lookup_zip (fields lvs : List String) (M : GoMap String)
    (hlen : lvs.length = fields.length)
    (hM : ∀ p ∈ fields.zip lvs, M.lookup p.1 = some p.2) :
    findAll (fun name => M.get name) fields = some lvs := by
  induction fields generalizing lvs with
  | nil =>
    cases lvs with
    | nil => rfl
    | cons _ _ => simp at hlen
  | cons f rest ih =>
    cases lvs with
    | nil => simp at hlen
    | cons v vs =>
      have h1 : M.lookup f = some v := hM (f, v) (by simp)
      have h2 := ih vs (by simpa using hlen) (fun p hp => hM p (by simp [hp]))
      have h3 : findAll (fun name => List.lookup name M) rest = some vs := by
        simpa [GoMap.get] using h2
      simp [findAll, GoMap.get, h1, h3]

theorem With_label_map (vec : GaugeVec) (fields lvs : List String)
    (hlabels : vec.desc.variableLabels = fields) (hnodup : fields.Nodup)
    (hlen : lvs.length = fields.length) :
    vec.With ((fields.zip lvs).reverse ++ []) =
      some ({ vec with series := getOrCreate vec.series lvs }, lvs) := by
  have hkeys : (((fields.zip lvs).reverse).map Prod.fst).Nodup := by
    rw [List.map_reverse, List.nodup_reverse, List.map_fst_zip]
    · exact hnodup
    · omega
  have hfind : findAll (fun name => GoMap.get (fields.zip lvs).reverse name) fields =
      some lvs := by
    apply findAll_lookup_zip _ _ _ hlen
    intro p hp
    exact lookup_of_mem_nodup _ hkeys p.1 p.2 (List.mem_reverse.mpr hp)
  unfold GaugeVec.With
  simp only [List.append_nil, hlabels, List.length_reverse, List.length_zip, hlen, min_self,
    if_true, hfind]

theorem Go_bind_apply {σ α β : Type} (m : Go σ α) (f : α → Go σ β) (s : σ) :
    (m >>= f) s = (match m s with
      | (some a, s1) => f a s1
      | (none, s1) => (none, s1)) := rfl

/-- The callback on one row, for a gauge vector whose label names are the distinct label fields
of the query: a row that yields a sample publishes it, any other row only records an error. -/
theorem rowCallback_spec (query : Query) (row : Json) (s : RowState)
    (hlabels : s.metric.desc.variableLabels = query.LabelFields.getD [])
    (hnodup : (query.LabelFields.getD []).Nodup) :
    (∃ sample, rowSample query row = some sample ∧
      rowCallback query row s = (some (), { s with metric := publish s.metric sample })) ∨
    (rowSample query row = none ∧
      ∃ err, rowCallback query row s = (some (), { s with globalErr := some err })) := by
  unfold rowCallback rowSample
  rcases GetFloat_rowValue query row with ⟨v, hv, hg⟩ | ⟨hv, x, err, hg⟩
  · rw [hv, hg]
    cases hf : query.LabelFields with
    | none =>
      rw [hf] at hlabels
      refine Or.inl ⟨([], v), rfl, ?_⟩
      simp only [Go_bind_apply, Go.read, Go.orPanic, Go.update, GaugeVec.WithLabelValues,
        hlabels, Option.getD_none, List.length_nil, if_true]
      rfl
    | some fields =>
      rw [hf] at hlabels hnodup
      simp only [Option.getD_some] at hlabels hnodup ⊢
      rcases readLabels_spec row fields [] hnodup (by simp) with ⟨lvs, hl, hr⟩ | ⟨hl, err, hr⟩
      · refine Or.inl ⟨(lvs, v), by rw [hl], ?_⟩
        have hw := With_label_map s.metric fields lvs hlabels hnodup (findAll_length _ _ _ hl)
        simp only [hr, Go_bind_apply, Go.read, Go.orPanic, hw]
        rfl
      · exact Or.inr ⟨by rw [hl], err, by simp only [hr]; rfl⟩
  · rw [hv, hg]
    exact Or.inr ⟨rfl, err, rfl⟩

theorem lookup_append_series (A B : List (List String × ℚ)) (k : List String) :
    (A ++ B).lookup k = (match A.lookup k with
      | some v => some v
      | none => B.lookup k) := by
  induction A with
  | nil => rfl
  | cons p t ih =>
    obtain ⟨a, b⟩ := p
    simp only [List.cons_append, List.lookup]
    cases h : (k == a) with
    | true => rfl
    | false => exact ih

theorem lookup_cons_if (a : List String) (b : ℚ) (t : List (List String × ℚ))
    (k : List String) :
    List.lookup k ((a, b) :: t) = if k = a then some b else List.lookup k t := by
  by_cases hk : k = a
  · subst hk; simp [List.lookup]
  · have hbeq : (k == a) = false := by simpa using hk
    simp [List.lookup, hbeq, hk]

theorem lookup_updateSeries (L : List (List String × ℚ)) (lvs k : List String) (f : ℚ → ℚ) :
    (updateSeries L lvs f).lookup k =
      if k = lvs then (L.lookup lvs).map f else L.lookup k := by
  induction L with
  | nil => simp [updateSeries]
  | cons p t ih =>
    obtain ⟨a, b⟩ := p
    unfold updateSeries at ih ⊢
    rw [List.map_cons]
    by_cases ha : a = lvs
    · rw [if_pos ha, lookup_cons_if, lookup_cons_if, ih]
      subst ha
      by_cases hk : k = a
      · simp [hk, lookup_cons_if]
      · simp [hk, lookup_cons_if]
    · rw [if_neg ha, lookup_cons_if, lookup_cons_if, ih]
      by_cases hk : k = lvs
      · have hka : ¬ k = a := fun h => ha (h ▸ hk)
        have hla : ¬ lvs = a := fun h => ha h.symm
        simp [hk, hla, lookup_cons_if]
      · simp [hk, lookup_cons_if]

theorem lookup_getOrCreate (L : List (List String × ℚ)) (lvs k : List String) :
    (getOrCreate L lvs).lookup k =
      if k = lvs then some ((L.lookup lvs).getD 0) else L.lookup k := by
  unfold getOrCreate
  cases h : L.lookup lvs with
  | some v =>
    by_cases hk : k = lvs
    · subst hk; simp [h]
    · simp [hk]
  | none =>
    simp only [Option.isSome_none, Bool.false_eq_true, if_false, lookup_append_series]
    by_cases hk : k = lvs
    · subst hk; simp [h, List.lookup]
    · have hbeq : (k == lvs) = false := by simpa using hk
      simp only [hk, if_false, List.lookup, hbeq]
      cases L.lookup k <;> rfl

/-- After a sample is published its series holds its value; every other series is as before. -/
theorem publish_value? (metric : GaugeVec) (sample : List String × ℚ) (k : List String) :
    (publish metric sample).value? k =
      if k = sample.1 then some sample.2 else metric.value? k := by
  unfold publish GaugeVec.value? GaugeVec.setChild
  simp only [lookup_updateSeries, lookup_getOrCreate]
  by_cases hk : k = sample.1
  · simp [hk]
  · simp [hk]

theorem foldl_publish_desc (samples : List (List String × ℚ)) (metric : GaugeVec) :
    (samples.foldl publish metric).desc = metric.desc := by
  induction samples generalizing metric with
  | nil => rfl
  | cons s rest ih => rw [List.foldl_cons, ih]; rfl

theorem lookup_snoc_samples (A : List (List String × ℚ)) (s : List String × ℚ)
    (k : List String) :
    (A ++ [s]).lookup k = (match A.lookup k with
      | some v => some v
      | none => if k = s.1 then some s.2 else none) := by
  rw [lookup_append_series]
  cases A.lookup k with
  | some v => rfl
  | none =>
    obtain ⟨a, b⟩ := s
    by_cases hk : k = a
    · subst hk; simp [List.lookup]
    · have hbeq : (k == a) = false := by simpa using hk
      simp [List.lookup, hbeq, hk]

/-- After a list of samples is published, each series holds the value of the last sample with
its label strings; a series no sample names is as before. -/
theorem foldl_publish_value? (samples : List (List String × ℚ)) (metric : GaugeVec)
    (k : List String) :
    (samples.foldl publish metric).value? k = (match samples.reverse.lookup k with
      | some v => some v
      | none => metric.value? k) := by
  induction samples generalizing metric with
  | nil => rfl
  | cons s rest ih =>
    rw [List.foldl_cons, ih, List.reverse_cons, lookup_snoc_samples, publish_value?]
    cases rest.reverse.lookup k with
    | some v => rfl
    | none =>
      by_cases hk : k = s.1
      · simp [hk]
      · simp [hk]

/-- The calls of the callback on the rows publish the samples of the rows that yield one, in
order, and record an error exactly when some row yields none. -/
theorem eachRow_spec (query : Query) (rows : List Json) (s : RowState)
    (hlabels : s.metric.desc.variableLabels = query.LabelFields.getD [])
    (hnodup : (query.LabelFields.getD []).Nodup) :
    ∃ gerr, eachRow query rows s =
        (some (), ⟨(rows.filterMap (rowSample query)).foldl publish s.metric, gerr⟩) ∧
      (gerr.isSome = true ↔
        (s.globalErr.isSome = true ∨ ∃ row ∈ rows, rowSample query row = none)) := by
  induction rows generalizing s with
  | nil => exact ⟨s.globalErr, rfl, by simp⟩
  | cons row rest ih =>
    unfold eachRow
    rcases rowCallback_spec query row s hlabels hnodup with ⟨sample, hs, hc⟩ | ⟨hs, err, hc⟩
    · obtain ⟨gerr, hrun, hiff⟩ := ih { s with metric := publish s.metric sample } hlabels
      refine ⟨gerr, ?_, ?_⟩
      · rw [Go_bind_apply, hc]
        simp only [hrun, List.filterMap_cons, hs, List.foldl_cons]
      · rw [hiff]
        simp only [List.mem_cons, exists_eq_or_imp, hs]
        simp
    · obtain ⟨gerr, hrun, hiff⟩ := ih { s with globalErr := some err } hlabels
      refine ⟨gerr, ?_, ?_⟩
      · rw [Go_bind_apply, hc]
        simp only [hrun, List.filterMap_cons, hs]
      · rw [hiff]
        simp only [List.mem_cons, exists_eq_or_imp, hs]
        simp

/-- A gauge vector registered by `createMetricObj` has the label fields of the query as its
label names, and they are distinct. -/
theorem IsMetricOf_labels (query : Query) (metric : GaugeVec) (h : IsMetricOf query metric) :
    metric.desc.variableLabels = query.LabelFields.getD [] ∧
      (query.LabelFields.getD []).Nodup := by
  obtain ⟨registry, created, registry1, hc, hd⟩ := h
  unfold createMetricObj MustRegister at hc
  simp only [Go_bind_apply, Go.read] at hc
  split at hc
  · rename_i hcond
    have hcreated : NewGaugeVec ("ravendb_queryresult_" ++ query.Name)
        ("Result of an RQL query " ++ query.Name) (query.LabelFields.getD []) = created := by
      have := congrArg Prod.fst hc
      simpa [pure] using this
    rw [hd, ← hcreated]
    refine ⟨rfl, ?_⟩
    split at hcond
    · rename_i hvalid
      simp only [Desc.valid, NewGaugeVec, Bool.and_eq_true, decide_eq_true_eq] at hvalid
      exact hvalid.1.2
    · simp [Go.panic] at hcond
  · simp at hc

theorem ArrayEach_results (response : Json) (rows : List Json)
    (hrows : Get response ["Results"] = some (.arr rows)) :
    (ArrayEach response ["Results"]).1 = rows := by
  unfold ArrayEach
  rw [hrows]

/-- What `readAndSetMetrics` does on a response with a `Results` array, for the gauge vector of
the query: it returns, each series named by a row that yields a sample holds the value of the
last such row, every other series is as before, and the error returned is non-nil exactly when
some row yields no sample. -/
theorem readAndSetMetrics_spec (query : Query) (metric : GaugeVec) (response : Json)
    (rows : List Json) (hmetric : IsMetricOf query metric)
    (hrows : Get response ["Results"] = some (.arr rows)) :
    ∃ gerr metric1, readAndSetMetrics query (.ok response) metric = (some gerr, metric1) ∧
      (gerr.isSome = true ↔ ∃ row ∈ rows, rowSample query row = none) ∧
      metric1.desc = metric.desc ∧
      ∀ lvs, metric1.value? lvs = (match lastSample query rows lvs with
        | some v => some v
        | none => metric.value? lvs) := by
  obtain ⟨hlabels, hnodup⟩ := IsMetricOf_labels query metric hmetric
  obtain ⟨gerr, hrun, hiff⟩ := eachRow_spec query rows ⟨metric, none⟩ hlabels hnodup
  refine ⟨gerr, (rows.filterMap (rowSample query)).foldl publish metric, ?_, ?_, ?_, ?_⟩
  · unfold readAndSetMetrics
    simp only [ArrayEach_results response rows hrows, hrun]
  · simpa using hiff
  · exact foldl_publish_desc _ _
  · intro lvs
    exact foldl_publish_value? _ _ _

/-- C7: for a response whose `Results` rows all carry a numeric value field and a string for
each configured label field, `readAndSetMetrics` returns no error and sets, for every row, the
series of the row's label strings to the row's value, the last row winning when rows share
their label strings; with no label fields the label strings are the empty list, the single
unlabeled series. Series that no row names are left as they were. -/
theorem readAndSetMetrics_sets_every_row (query : Query) (metric : GaugeVec) (response : Json)
    (rows : List Json) (hmetric : IsMetricOf query metric)
    (hrows : Get response ["Results"] = some (.arr rows))
    (hall : ∀ row ∈ rows, (rowSample query row).isSome = true) :
    ∃ metric1, readAndSetMetrics query (.ok response) metric = (some none, metric1) ∧
      metric1.desc = metric.desc ∧
      (∀ row ∈ rows, ∀ sample, rowSample query row = some sample →
        metric1.value? sample.1 = lastSample query rows sample.1 ∧
        (lastSample query rows sample.1).isSome = true) ∧
      ∀ lvs, metric1.value? lvs = (match lastSample query rows lvs with
        | some v => some v
        | none => metric.value? lvs) := by
  obtain ⟨gerr, metric1, hrun, hiff, hdesc, hval⟩ :=
    readAndSetMetrics_spec query metric response rows hmetric hrows
  have hnone : gerr = none := by
    cases hg : gerr with
    | none => rfl
    | some err =>
      rw [hg] at hiff
      obtain ⟨row, hrow, hs⟩ := hiff.mp rfl
      have := hall row hrow
      rw [hs] at this
      simp at this
  subst hnone
  refine ⟨metric1, hrun, hdesc, ?_, hval⟩
  intro row hrow sample hs
  have hmem : sample ∈ (rows.filterMap (rowSample query)).reverse :=
    List.mem_reverse.mpr (List.mem_filterMap.mpr ⟨row, hrow, hs⟩)
  have hsome : (lastSample query rows sample.1).isSome = true := by
    unfold lastSample
    generalize (rows.filterMap (rowSample query)).reverse = L at hmem
    induction L with
    | nil => simp at hmem
    | cons p t ih =>
      obtain ⟨a, b⟩ := p
      rw [lookup_cons_if]
      by_cases hk : sample.1 = a
      · simp [hk]
      · rw [if_neg hk]
        rcases List.mem_cons.mp hmem with h | h
        · exact absurd (by rw [h]) hk
        · exact ih h
  refine ⟨?_, hsome⟩
  rw [hval]
  cases h : lastSample query rows sample.1 with
  | some v => rfl
  | none => rw [h] at hsome; simp at hsome

/-- Instance of C7: the rows `{value: 5, region: "eu"}`, `{value: 7, region: "us"}` with value
field `value` and label fields `["region"]` give `metric{region="eu"} = 5` and
`metric{region="us"} = 7`. -/
theorem readAndSetMetrics_sets_every_row_witness :
    ∃ metric1, readAndSetMetrics sampleQuery (.ok twoRows) sampleMetric = (some none, metric1) ∧
      metric1.value? ["eu"] = some 5 ∧ metric1.value? ["us"] = some 7 := by
  obtain ⟨metric1, hrun, _, _, hval⟩ :=
    readAndSetMetrics_sets_every_row sampleQuery sampleMetric twoRows
      [.obj [("value", .num 5), ("region", .str "eu")],
        .obj [("value", .num 7), ("region", .str "us")]]
      ⟨[], sampleMetric, [sampleMetric.desc], by decide!, rfl⟩ rfl (by decide!)
  exact ⟨metric1, hrun, by rw [hval]; decide!, by rw [hval]; decide!⟩

/-- C6 (amended): when some row of the result cannot be extracted, `readAndSetMetrics` returns an
error and publishes no series for the failing rows, while every row that can be extracted,
before or after a failing row, still sets its series: each series holds the value of the last
extractable row with its label strings, and every other series is as before. -/
theorem readAndSetMetrics_skips_failing_rows (query : Query) (metric : GaugeVec)
    (response : Json) (rows : List Json) (hmetric : IsMetricOf query metric)
    (hrows : Get response ["Results"] = some (.arr rows))
    (hfail : ∃ row ∈ rows, rowSample query row = none) :
    ∃ err metric1, readAndSetMetrics query (.ok response) metric = (some (some err), metric1) ∧
      metric1.desc = metric.desc ∧
      ∀ lvs, metric1.value? lvs = (match lastSample query rows lvs with
        | some v => some v
        | none => metric.value? lvs) := by
  obtain ⟨gerr, metric1, hrun, hiff, hdesc, hval⟩ :=
    readAndSetMetrics_spec query metric response rows hmetric hrows
  cases hg : gerr with
  | none =>
    rw [hg] at hiff
    have := hiff.mpr hfail
    simp at this
  | some err =>
    rw [hg] at hrun
    exact ⟨err, metric1, hrun, hdesc, hval⟩

/-- Instance of C6 (amended): of three rows the second has no value field; an error is
returned, the first and third rows are published, the second is not. -/
theorem readAndSetMetrics_skips_failing_rows_witness :
    ∃ err metric1,
      readAndSetMetrics sampleQuery (.ok failingMiddleRow) sampleMetric =
        (some (some err), metric1) ∧
      metric1.value? ["eu"] = some 5 ∧ metric1.value? ["us"] = some 7 ∧
      metric1.value? ["asia"] = none := by
  obtain ⟨err, metric1, hrun, _, hval⟩ :=
    readAndSetMetrics_skips_failing_rows sampleQuery sampleMetric failingMiddleRow
      [.obj [("value", .num 5), ("region", .str "eu")],
        .obj [("region", .str "asia")],
        .obj [("value", .num 7), ("region", .str "us")]]
      ⟨[], sampleMetric, [sampleMetric.desc], by decide!, rfl⟩ rfl
      ⟨.obj [("region", .str "asia")], by simp, by decide!⟩
  exact ⟨err, metric1, hrun, by rw [hval]; decide!, by rw [hval]; decide!,
    by rw [hval]; decide!⟩

/-- C6 as stated fails: the second of three rows has no value field, `readAndSetMetrics`
returns an error, and the rows before and after it have set their series. -/
theorem readAndSetMetrics_publishes_around_failing_row :
    rowSample sampleQuery (.obj [("region", .str "asia")]) = none ∧
    sampleMetric.series = [] ∧
    readAndSetMetrics sampleQuery (.ok failingMiddleRow) sampleMetric =
      (some (some "Key path not found"),
        ⟨sampleMetric.desc, [(["eu"], 5), (["us"], 7)]⟩) := by
  decide!

/-- With a non-empty list of label fields the fallback of `runQueryCollector` panics: the
iteration does not return and no series is set. -/
theorem runQueryCollectorIteration_error_labelled (query : Query) (metric : GaugeVec)
    (err : GoError) (label : String) (labels : List String)
    (hfields : query.LabelFields = some (label :: labels))
    (hmetric : IsMetricOf query metric) :
    runQueryCollectorIteration query (.error err) metric = (none, metric) := by
  obtain ⟨hlabels, _⟩ := IsMetricOf_labels query metric hmetric
  rw [hfields] at hlabels
  unfold runQueryCollectorIteration readAndSetMetrics
  simp only [Go_bind_apply, Go.read, GaugeVec.WithLabelValues, hlabels, Option.getD_some,
    List.length_nil, List.length_cons]
  rfl

/-- C5: with value-on-error -1 and label fields `["region"]`, when the fetch fails the
iteration of `runQueryCollector` panics in `WithLabelValues()`: it does not return and sets no
series, neither `metric{}` nor a labeled one. -/
theorem runQueryCollector_fallback_panics :
    createMetricObj sampleQuery [] = (some sampleMetric, [sampleMetric.desc]) ∧
    sampleQuery.ValueOnError = -1 ∧ sampleQuery.LabelFields = some ["region"] ∧
    runQueryCollectorIteration sampleQuery (.error "connection refused") sampleMetric =
      (none, sampleMetric) ∧
    sampleMetric.value? [] = none := by
  decide!

end RavenExporter
